import Mathlib

/-!
# MyFs: a shallow embedding of `myfs.cpp` and `blkdev.cpp`

The block device is a byte store of `DEVICE_SIZE` bytes.  Every routine of
`myfs.cpp` is transcribed as a function that takes the device contents and
returns its result together with the new device contents.

Platform of the on-disk layout: x86-64 Linux, little endian, `int` of 32 bits,
`size_t` of 64 bits, hence `sizeof(myfs_header) = 5`, `sizeof(Inode) = 64`
(id at 0, directory at 4, size at 8, addresses at 16) and
`sizeof(DirEntry) = 16` (name at 0, id at 12).

Undefined behaviour of the C++ program (a memcpy outside the mapped device, a
shift `1 << i` with `i >= 32`, a result that depends on memory outside an
object) is an explicit outcome of the model.  One value is fixed by the model:
the bytes that `create_file` copies from behind the terminator of a short file
name are indeterminate in the program and zero here (see `create_file`); the
routines that read a name stop at the terminator (`strcmpEq_tail`, `cstring_tail`).
-/

set_option maxRecDepth 100000
set_option linter.dupNamespace false

namespace MyFs

/-! ## Constants of `myfs.h` and `blkdev.h` -/

def DEVICE_SIZE : Int := 1024 * 1024
def DIRECT_POINTERS : Nat := 12
def FILE_NAME_LEN : Nat := 11
def BLOCK_SIZE : Nat := 16
def BITS_IN_BYTE : Nat := 8
def BYTES_PER_INODE : Nat := 16 * 1024
def CURR_VERSION : Nat := 3
def sizeof_myfs_header : Nat := 5
def sizeof_Inode : Nat := 64
def sizeof_DirEntry : Nat := 16

abbrev Bytes := List Nat

/-- Bytes of an ASCII literal. -/
def str (s : String) : Bytes := s.toList.map fun c => c.toNat % 256

def MYFS_MAGIC : Bytes := [77, 89, 70, 83]

/-! ## Little-endian integers -/

/-- The `n` little-endian bytes of `v` (truncating). -/
def leBytes (n : Nat) (v : Nat) : Bytes := (List.range n).map fun j => v / 256 ^ j % 256

/-- The unsigned value of little-endian bytes. -/
def leNat : Bytes → Nat
  | [] => 0
  | b :: bs => b % 256 + 256 * leNat bs

/-- Two's complement reading of a 32-bit pattern as `int`. -/
def toInt32 (u : Nat) : Int :=
  if u % 2 ^ 32 < 2 ^ 31 then (u % 2 ^ 32 : Nat) else (u % 2 ^ 32 : Nat) - 2 ^ 32

/-- The 32-bit pattern of an `int`. -/
def ofInt32 (v : Int) : Nat := (v % 2 ^ 32).toNat

/-! ## The block device of `blkdev.cpp` -/

/-- Contents of the device: the byte at every address (taken modulo 256). -/
abbrev Device := Nat → Nat

/-- A new device file: `lseek` to the last byte and one write, all bytes zero. -/
def dev0 : Device := fun _ => 0

/-- The bytes `memcpy` copies out of the mapping. -/
def load (dev : Device) (addr size : Nat) : Bytes :=
  (List.range size).map fun j => dev (addr + j) % 256

/-- The mapping after `memcpy` copied the first `size` bytes of `data` into it. -/
def store (dev : Device) (addr size : Nat) (data : Bytes) : Device := fun a =>
  if addr ≤ a ∧ a < addr + size then data.getD (a - addr) 0 % 256 else dev a

/-- Source `BlockDeviceSimulator::read`, `memcpy(ans, filemap + addr, size)`;
`none` when the range leaves the mapping. -/
def BlockDeviceSimulator.read (dev : Device) (addr : Int) (size : Nat) : Option Bytes :=
  if 0 ≤ addr ∧ addr + size ≤ DEVICE_SIZE then some (load dev addr.toNat size) else none

/-- Source `BlockDeviceSimulator::write`, `memcpy(filemap + addr, data, size)`;
`none` when the range leaves the mapping. -/
def BlockDeviceSimulator.write (dev : Device) (addr : Int) (size : Nat) (data : Bytes) :
    Option Device :=
  if 0 ≤ addr ∧ addr + size ≤ DEVICE_SIZE then some (store dev addr.toNat size data) else none

/-- Result of a routine that may write to the device. -/
inductive Outcome (α : Type) where
  /-- normal return with the value and the device contents -/
  | ok (val : α) (dev : Device)
  /-- the exception `std::runtime_error("Error: reached maximum file size")`
  left the routine; `dev` is the device contents at that moment -/
  | thrown (dev : Device)
  /-- undefined behaviour -/
  | undefined

/-- Sequencing: an exception or undefined behaviour ends the routine. -/
def Outcome.bind {α β : Type} (x : Outcome α) (f : α → Device → Outcome β) : Outcome β :=
  match x with
  | .ok v d => f v d
  | .thrown d => .thrown d
  | .undefined => .undefined

/-- Device contents after a normal return. -/
def Outcome.dev? {α : Type} : Outcome α → Option Device
  | .ok _ d => some d
  | _ => none

/-- Value of a normal return. -/
def Outcome.val? {α : Type} : Outcome α → Option α
  | .ok v _ => some v
  | _ => none

/-- Whether the outcome is undefined behaviour. -/
def Outcome.isUndefined {α : Type} : Outcome α → Bool
  | .undefined => true
  | _ => false

/-- A device write as an outcome. -/
def writeOutcome (dev : Device) (addr : Int) (size : Nat) (data : Bytes) : Outcome Unit :=
  match BlockDeviceSimulator.write dev addr size data with
  | some dev1 => .ok () dev1
  | none => .undefined

/-! ## Records of `myfs.h` -/

structure DiskParts where
  blockBitMap : Int
  inodeBitMap : Int
  root : Int
  unused : Int
  data : Int
deriving DecidableEq

structure Inode where
  id : Int
  directory : Bool
  size : Nat
  addresses : List Int
deriving DecidableEq

/-- The value of `Inode x{}`: all fields zero. -/
def Inode.zero : Inode :=
  { id := 0, directory := false, size := 0, addresses := List.replicate DIRECT_POINTERS 0 }

/-- The 64 bytes of an `Inode` (padding bytes 5..7 zero). -/
def Inode.encode (x : Inode) : Bytes :=
  leBytes 4 (ofInt32 x.id) ++ [if x.directory then 1 else 0, 0, 0, 0] ++ leBytes 8 x.size
    ++ ((x.addresses ++ List.replicate DIRECT_POINTERS 0).take DIRECT_POINTERS).flatMap
        fun a => leBytes 4 (ofInt32 a)

/-- Reading 64 bytes as an `Inode`. -/
def Inode.decode (bs : Bytes) : Inode :=
  { id := toInt32 (leNat (bs.take 4))
    directory := bs.getD 4 0 % 256 != 0
    size := leNat ((bs.drop 8).take 8)
    addresses := (List.range DIRECT_POINTERS).map fun k =>
      toInt32 (leNat ((bs.drop (16 + 4 * k)).take 4)) }

structure DirEntry where
  name : Bytes
  id : Int
deriving DecidableEq

/-- The 16 bytes of a `DirEntry` (name padded to 11 bytes, padding byte 11 zero). -/
def DirEntry.encode (e : DirEntry) : Bytes :=
  (e.name ++ List.replicate FILE_NAME_LEN 0).take FILE_NAME_LEN ++ [0] ++ leBytes 4 (ofInt32 e.id)

structure dir_list_entry where
  name : Bytes
  is_dir : Bool
  file_size : Int
deriving DecidableEq

/-! ## Disk layout -/

/-- The `while` loop of `_calcParts`; returns `inodeBitMap`. -/
def _calcParts.loop : Nat → Int → Int → Int → Int
  | 0, _, inodeBitMap, _ => inodeBitMap
  | fuel + 1, blockBitMap, inodeBitMap, amountOfBlocks =>
    if (inodeBitMap - blockBitMap) * BITS_IN_BYTE < amountOfBlocks then
      _calcParts.loop fuel blockBitMap (inodeBitMap + 1)
        (if Int.tmod (inodeBitMap - blockBitMap) BLOCK_SIZE = 0 then amountOfBlocks - 1
         else amountOfBlocks)
    else inodeBitMap

/-- Source `MyFs::_calcParts`.  The loop adds one byte per iteration while eight
times the byte count is below a count that is at most `deviceSize / 16`, so
`deviceSize` iterations always suffice.  `std::ceil((float)n / 8)` is exact for
the small `n` here and is written as an integer ceiling. -/
def _calcParts : DiskParts :=
  let deviceSize := DEVICE_SIZE
  let remainingSpace := deviceSize - sizeof_myfs_header
  let amountOfBlocks := Int.tdiv remainingSpace BLOCK_SIZE
  let blockBitMap : Int := sizeof_myfs_header
  let inodeBitMap := _calcParts.loop deviceSize.toNat blockBitMap blockBitMap amountOfBlocks
  let remainingSpace := deviceSize - inodeBitMap
  let amountOfInodes := Int.tdiv remainingSpace BYTES_PER_INODE
  let root := inodeBitMap + Int.tdiv (amountOfInodes + BITS_IN_BYTE - 1) BITS_IN_BYTE
  let unused := root + amountOfInodes * sizeof_Inode
  let data := unused + Int.tmod (deviceSize - unused) BLOCK_SIZE
  { blockBitMap, inodeBitMap, root, unused, data }

/-- The body of `MyFs::_calcParts` with the capacity as a parameter: the source
reads the constant `BlockDeviceSimulator::DEVICE_SIZE` into the local
`deviceSize`, which its comment documents as `@param deviceSize the disk device
size`.  `_calcParts` is `_calcPartsOf DEVICE_SIZE` (`calcParts_eq_calcPartsOf`).
`deviceSize` is an `int`; for a capacity below `2 ^ 31` no intermediate value
leaves the range of `int`. -/
def _calcPartsOf (deviceSize : Int) : DiskParts :=
  let remainingSpace := deviceSize - sizeof_myfs_header
  let amountOfBlocks := Int.tdiv remainingSpace BLOCK_SIZE
  let blockBitMap : Int := sizeof_myfs_header
  let inodeBitMap := _calcParts.loop deviceSize.toNat blockBitMap blockBitMap amountOfBlocks
  let remainingSpace := deviceSize - inodeBitMap
  let amountOfInodes := Int.tdiv remainingSpace BYTES_PER_INODE
  let root := inodeBitMap + Int.tdiv (amountOfInodes + BITS_IN_BYTE - 1) BITS_IN_BYTE
  let unused := root + amountOfInodes * sizeof_Inode
  let data := unused + Int.tmod (deviceSize - unused) BLOCK_SIZE
  { blockBitMap, inodeBitMap, root, unused, data }

/-- The member `_parts`, which the constructor initialises with `_calcParts()`;
written out so that the routines below do not recompute the layout
(`_parts_eq_calcParts`). -/
def _parts : DiskParts :=
  { blockBitMap := 5, inodeBitMap := 8134, root := 8142, unused := 12174, data := 12176 }

/-! ## Bitmap allocator -/

def ALL_OCCUPIED : Nat := 0xFFFFFFFFFFFFFFFF

/-- The `do ... while (buffer == ALL_OCCUPIED)` loop of `_allocate`: the address
of the first word that is not all ones, and the word.  Every iteration moves
8 bytes forward and a read outside the device is undefined, so
`DEVICE_SIZE / 8 + 1` iterations always suffice. -/
def _allocate.scan (dev : Device) : Nat → Int → Option (Int × Nat)
  | 0, _ => none
  | fuel + 1, address =>
    match BlockDeviceSimulator.read dev address 8 with
    | none => none
    | some bs =>
      if leNat bs = ALL_OCCUPIED then _allocate.scan dev fuel (address + 8)
      else some (address, leNat bs)

/-- The `int` expression `1 << i` converted to `uint64_t` (the other operand of
`&` and `^=` is `uint64_t`): `2^i` for `i < 31`; `1 << 31` is `INT_MIN`, whose
conversion sign-extends; for `i >= 32` the shift is undefined. -/
def shiftOne (i : Nat) : Option Nat :=
  if i < 31 then some (2 ^ i) else if i = 31 then some (2 ^ 64 - 2 ^ 31) else none

/-- The `for (i = 0; i < 64; i++)` loop of `_allocate` from `i` on, with `n`
iterations left; without a `break` the routine returns `address` as it is. -/
def _allocate.find (dev : Device) (bitmapStart address : Int) (buffer : Nat) :
    Nat → Nat → Outcome Int
  | 0, _ => .ok address dev
  | n + 1, i =>
    match shiftOne i with
    | none => .undefined
    | some m =>
      if buffer &&& m = 0 then
        (writeOutcome dev address 8 (leBytes 8 (buffer ^^^ m))).bind fun _ dev1 =>
          .ok (address - bitmapStart + i) dev1
      else _allocate.find dev bitmapStart address buffer n (i + 1)

/-- Source `MyFs::_allocate`. -/
def _allocate (dev : Device) (bitmapStart : Int) : Outcome Int :=
  match _allocate.scan dev (DEVICE_SIZE.toNat / 8 + 1) bitmapStart with
  | none => .undefined
  | some (address, buffer) => _allocate.find dev bitmapStart address buffer 64 0

/-- Source `MyFs::_deallocate`.  `offset` is `unsigned`, so a negative `n % 8`
becomes a shift count above 31 (undefined). -/
def _deallocate (dev : Device) (bitmapStart n : Int) : Outcome Unit :=
  let byteAddress := bitmapStart + Int.tdiv n BITS_IN_BYTE
  let offset := Int.tmod n BITS_IN_BYTE
  if offset < 0 then .undefined
  else
    match BlockDeviceSimulator.read dev byteAddress 1 with
    | none => .undefined
    | some bs => writeOutcome dev byteAddress 1 (leBytes 1 (leNat bs ^^^ 2 ^ offset.toNat))

/-- Source `MyFs::_allocateInode`. -/
def _allocateInode (dev : Device) : Outcome Int :=
  _allocate dev _parts.inodeBitMap

/-- Source `MyFs::_allocateBlock`. -/
def _allocateBlock (dev : Device) : Outcome Int :=
  (_allocate dev _parts.blockBitMap).bind fun address dev1 =>
    .ok (address * BLOCK_SIZE + _parts.data) dev1

/-- Source `MyFs::_deallocateBlock`. -/
def _deallocateBlock (dev : Device) (address : Int) : Outcome Unit :=
  let blockNumber := Int.tdiv (address - _parts.data) BLOCK_SIZE
  _deallocate dev _parts.blockBitMap blockNumber

/-! ## Inode store -/

/-- Source `MyFs::_getInodeAddress`. -/
def _getInodeAddress (id : Int) : Int := _parts.root + id * sizeof_Inode

/-- Source `MyFs::_writeInode`. -/
def _writeInode (dev : Device) (inode : Inode) : Outcome Unit :=
  writeOutcome dev (_getInodeAddress inode.id) sizeof_Inode inode.encode

/-- The read `blkdevsim->read(_getInodeAddress(id), sizeof(Inode), &inode)` of
`list_dir` and `_getInode`. -/
def readInode (dev : Device) (id : Int) : Option Inode :=
  (BlockDeviceSimulator.read dev (_getInodeAddress id) sizeof_Inode).map Inode.decode

/-- Source `MyFs::_getRootDir`. -/
def _getRootDir (dev : Device) : Option Inode :=
  (BlockDeviceSimulator.read dev _parts.root sizeof_Inode).map Inode.decode

/-! ## Block allocation of an inode -/

/-- The loop `while (addresses[usedBlocks] != 0) usedBlocks++` of
`_reallocateBlocks`.  The table has 12 slots; when all are non-zero the loop
reads `addresses[12]`, outside the object, and the count is undefined. -/
def _reallocateBlocks.countUsed (addresses : List Int) : Nat → Nat → Option Nat
  | 0, _ => none
  | fuel + 1, usedBlocks =>
    match addresses[usedBlocks]? with
    | none => none
    | some a =>
      if a ≠ 0 then _reallocateBlocks.countUsed addresses fuel (usedBlocks + 1)
      else some usedBlocks

/-- The allocation loop of `_reallocateBlocks`; `n` iterations are left. -/
def _reallocateBlocks.grow : Nat → Device → Inode → Nat → Outcome Inode
  | 0, dev, newAddresses, _ => .ok newAddresses dev
  | n + 1, dev, newAddresses, usedBlocks =>
    (_allocateBlock dev).bind fun a dev1 =>
      _reallocateBlocks.grow n dev1
        { newAddresses with addresses := newAddresses.addresses.set usedBlocks a } (usedBlocks + 1)

/-- The deallocation loop of `_reallocateBlocks`; `n` iterations are left. -/
def _reallocateBlocks.shrink : Nat → Device → Inode → Nat → Outcome Inode
  | 0, dev, newAddresses, _ => .ok newAddresses dev
  | n + 1, dev, newAddresses, usedBlocks =>
    match usedBlocks with
    | 0 => .undefined
    | u + 1 =>
      match newAddresses.addresses[u]? with
      | none => .undefined
      | some a =>
        (_deallocateBlock dev a).bind fun _ dev1 =>
          _reallocateBlocks.shrink n dev1
            { newAddresses with addresses := newAddresses.addresses.set u 0 } u

/-- Source `MyFs::_reallocateBlocks`. -/
def _reallocateBlocks (dev : Device) (inode : Inode) (newSize : Nat) : Outcome Inode :=
  let requiredBlocks := newSize / BLOCK_SIZE + (if newSize % BLOCK_SIZE != 0 then 1 else 0)
  if requiredBlocks > DIRECT_POINTERS then .thrown dev
  else
    match _reallocateBlocks.countUsed inode.addresses (DIRECT_POINTERS + 1) 0 with
    | none => .undefined
    | some usedBlocks =>
      if requiredBlocks > usedBlocks then
        _reallocateBlocks.grow (requiredBlocks - usedBlocks) dev inode usedBlocks
      else if requiredBlocks < usedBlocks then
        _reallocateBlocks.shrink (usedBlocks - requiredBlocks) dev inode usedBlocks
      else .ok inode dev

/-! ## File content -/

/-- The loop of `_readInodeData`.  `addresses[pointer]` with `pointer >= 12`
is outside the inode, so at most 12 chunks are read. -/
def _readInodeData.loop (dev : Device) (inode : Inode) (LAST_POINTER : Nat) :
    Nat → Nat → Nat → Bytes → Option Bytes
  | 0, _, _, _ => none
  | fuel + 1, pointer, bytesRead, buffer =>
    if bytesRead ≠ inode.size then
      let toRead := if pointer = LAST_POINTER then inode.size % BLOCK_SIZE else BLOCK_SIZE
      match inode.addresses[pointer]? with
      | none => none
      | some a =>
        match BlockDeviceSimulator.read dev a toRead with
        | none => none
        | some bs =>
          _readInodeData.loop dev inode LAST_POINTER fuel (pointer + 1) (bytesRead + toRead)
            (buffer ++ bs)
    else some buffer

/-- Source `MyFs::_readInodeData`: the `inode.size` bytes of the buffer. -/
def _readInodeData (dev : Device) (inode : Inode) : Option Bytes :=
  _readInodeData.loop dev inode (inode.size / BLOCK_SIZE % 2 ^ 32) (DIRECT_POINTERS + 1) 0 0 []

/-! ## Path resolution -/

/-- Source `std::string::find(c)`; `none` is `npos`. -/
def find (c : Nat) : Bytes → Option Nat
  | [] => none
  | b :: bs => if b = c then some 0 else (find c bs).map (· + 1)

/-- Source `std::string::find_last_of(c)`; `none` is `npos`. -/
def find_last_of (c : Nat) : Bytes → Option Nat
  | [] => none
  | b :: bs =>
    match find_last_of c bs with
    | some k => some (k + 1)
    | none => if b = c then some 0 else none

/-- The test `strcmp(buf + off, s.c_str()) == 0`, where `buf` is a heap buffer;
`none` when the comparison runs past the end of the buffer. -/
def strcmpEq (buf : Bytes) : Nat → Bytes → Option Bool
  | off, [] => (buf[off]?).map fun a => a == 0
  | off, b :: s =>
    match buf[off]? with
    | none => none
    | some a =>
      if b = 0 then some (a == 0)
      else if a = b then strcmpEq buf (off + 1) s
      else some false

/-- The loop `while (strcmp(dirContent[index].name, nextFolder) != 0) index++`
of `_getInode`; it has no bound in the source and runs off the buffer when no
entry matches. -/
def _getInode.scan (dirContent nextFolder : Bytes) : Nat → Nat → Option Nat
  | 0, _ => none
  | fuel + 1, index =>
    match strcmpEq dirContent (sizeof_DirEntry * index) nextFolder with
    | none => none
    | some true => some index
    | some false => _getInode.scan dirContent nextFolder fuel (index + 1)

/-- The field `dirContent[index].id`; `none` outside the buffer. -/
def dirEntryId (dirContent : Bytes) (index : Nat) : Option Int :=
  if sizeof_DirEntry * index + 16 ≤ dirContent.length then
    some (toInt32 (leNat ((dirContent.drop (sizeof_DirEntry * index + 12)).take 4)))
  else none

/-- The `while (nextDelimiter != npos)` loop of `_getInode`; each iteration
removes at least one byte of `path`. -/
def _getInode.loop (dev : Device) : Nat → Bytes → Option Nat → Inode → Option Inode
  | 0, _, _, _ => none
  | fuel + 1, path, nextDelimiter, inode =>
    match nextDelimiter with
    | none => some inode
    | some nd =>
      match _readInodeData dev inode with
      | none => none
      | some dirContent =>
        let path1 := path.drop (nd + 1)
        let nextDelimiter1 := find 47 path1
        let nextFolder := match nextDelimiter1 with
          | none => path1
          | some k => path1.take k
        match _getInode.scan dirContent nextFolder (dirContent.length / sizeof_DirEntry + 2) 0 with
        | none => none
        | some index =>
          match dirEntryId dirContent index with
          | none => none
          | some id =>
            match readInode dev id with
            | none => none
            | some inode1 => _getInode.loop dev fuel path1 nextDelimiter1 inode1

/-- Source `MyFs::_getInode`; `none` is undefined behaviour (a segment that no
entry matches). -/
def _getInode (dev : Device) (path : Bytes) : Option Inode :=
  match _getRootDir dev with
  | none => none
  | some inode =>
    if path = [47] then some inode
    else _getInode.loop dev (path.length + 1) path (find 47 path) inode

/-! ## Directory writer -/

/-- The `do ... while (bytesLeft != 0)` loop of `_addFileToFolder`.  `address`
is `none` when it was read from `addresses[pointer]` with `pointer >= 12`. -/
def _addFileToFolder.loop (file : Bytes) :
    Nat → Device → Inode → Nat → Option Int → Nat → Nat → Nat → Outcome Inode
  | 0, _, _, _, _, _, _, _ => .undefined
  | fuel + 1, dev, folder, pointer, address, toWrite, written, bytesLeft =>
    match address with
    | none => .undefined
    | some a =>
      (writeOutcome dev a toWrite (file.drop written)).bind fun _ dev1 =>
        let folder1 := { folder with size := (folder.size + toWrite) % 2 ^ 64 }
        let written1 := written + toWrite
        let bytesLeft1 := bytesLeft - toWrite
        let pointer1 := pointer + 1
        let address1 := folder1.addresses[pointer1]?
        let toWrite1 := if bytesLeft1 > BLOCK_SIZE then BLOCK_SIZE else bytesLeft1
        if bytesLeft1 ≠ 0 then
          _addFileToFolder.loop file fuel dev1 folder1 pointer1 address1 toWrite1 written1
            bytesLeft1
        else .ok folder1 dev1

/-- Source `MyFs::_addFileToFolder`; the value is the updated `folder`. -/
def _addFileToFolder (dev : Device) (file : DirEntry) (folder : Inode) : Outcome Inode :=
  let pointer := folder.size / BLOCK_SIZE % 2 ^ 32
  let bytesLeft := sizeof_DirEntry
  let spaceTakenInLastBlock := folder.size % BLOCK_SIZE
  (_reallocateBlocks dev folder ((folder.size + sizeof_DirEntry) % 2 ^ 64)).bind
    fun folder1 dev1 =>
      let address := (folder1.addresses[pointer]?).map fun a => a + (spaceTakenInLastBlock : Int)
      let emptySpace := BLOCK_SIZE - spaceTakenInLastBlock
      let toWrite := if bytesLeft > emptySpace then emptySpace else bytesLeft
      (_addFileToFolder.loop file.encode (sizeof_DirEntry + 1) dev1 folder1 pointer address
          toWrite 0 bytesLeft).bind
        fun folder2 dev2 => (_writeInode dev2 folder2).bind fun _ dev3 => .ok folder2 dev3

/-! ## Public operations -/

/-- Source `MyFs::format`. -/
def format (dev : Device) : Outcome Unit :=
  let bitMapsSize := (_parts.root - _parts.blockBitMap).toNat
  (writeOutcome dev 0 sizeof_myfs_header (MYFS_MAGIC ++ [CURR_VERSION])).bind fun _ dev1 =>
    (writeOutcome dev1 _parts.blockBitMap bitMapsSize (List.replicate bitMapsSize 0)).bind fun _ dev2 =>
      (_allocateInode dev2).bind fun id dev3 =>
        writeOutcome dev3 _parts.root sizeof_Inode
          { Inode.zero with directory := true, id := id }.encode

/-- The constructor `MyFs::MyFs`: the lines printed and the device contents. -/
def MyFs (dev : Device) : Outcome (List String) :=
  match BlockDeviceSimulator.read dev 0 sizeof_myfs_header with
  | none => .undefined
  | some header =>
    if header.take 4 ≠ MYFS_MAGIC ∨ header.getD 4 0 ≠ CURR_VERSION then
      (format dev).bind fun _ dev1 =>
        .ok ["Did not find myfs instance on blkdev", "Creating...", "Finished!"] dev1
    else .ok [] dev

/-- Source `MyFs::create_file`.  `memcpy(fileDetails.name, FILE_NAME.c_str(), 10)`
copies the name, its terminator and, for a name shorter than 9 bytes, bytes
behind the terminator.  Those bytes are indeterminate in the program; the model
fixes them to zero.  They reach the device in the name field of the entry, and
the two readers of a name field, `strcmp` in `_getInode` and the conversion to
`std::string` in `list_dir`, stop at the terminator (`strcmpEq_tail`,
`cstring_tail`). -/
def create_file (dev : Device) (path_str : Bytes) (directory : Bool) : Outcome Unit :=
  let LAST_DELIMITER := find_last_of 47 path_str
  let FILE_NAME := match LAST_DELIMITER with
    | none => path_str
    | some k => path_str.drop (k + 1)
  let dirPath := match LAST_DELIMITER with
    | none => path_str
    | some k => path_str.take k
  match _getInode dev dirPath with
  | none => .undefined
  | some dir =>
    (_allocateInode dev).bind fun id dev1 =>
      let file := { Inode.zero with id := id, directory := directory }
      (_writeInode dev1 file).bind fun _ dev2 =>
        let fileDetails : DirEntry :=
          { name := (FILE_NAME ++ List.replicate FILE_NAME_LEN 0).take (FILE_NAME_LEN - 1)
            id := file.id }
        (_addFileToFolder dev2 fileDetails dir).bind fun _ dev3 => .ok () dev3

/-- The write loop of `set_content`. -/
def set_content.loop (content : Bytes) (file : Inode) (LAST_POINTER : Nat) :
    Nat → Device → Nat → Nat → Outcome Unit
  | 0, _, _, _ => .undefined
  | fuel + 1, dev, pointer, bytesWritten =>
    if bytesWritten ≠ file.size then
      let toWrite := if pointer = LAST_POINTER then file.size % BLOCK_SIZE else BLOCK_SIZE
      match file.addresses[pointer]? with
      | none => .undefined
      | some a =>
        (writeOutcome dev a toWrite (content.drop bytesWritten)).bind fun _ dev1 =>
          set_content.loop content file LAST_POINTER fuel dev1 (pointer + 1)
            (bytesWritten + toWrite)
    else .ok () dev

/-- Source `MyFs::set_content`. -/
def set_content (dev : Device) (path_str content : Bytes) : Outcome Unit :=
  let NEW_SIZE := content.length
  let LAST_POINTER := NEW_SIZE / BLOCK_SIZE % 2 ^ 32
  match _getInode dev path_str with
  | none => .undefined
  | some file =>
    (_reallocateBlocks dev file NEW_SIZE).bind fun file1 dev1 =>
      let file2 := { file1 with size := NEW_SIZE }
      (set_content.loop content file2 LAST_POINTER (DIRECT_POINTERS + 1) dev1 0 0).bind
        fun _ dev2 => _writeInode dev2 file2

/-- The conversion of a `char*` into a heap buffer `buf` at offset `off` to a
`std::string`: the bytes before the first zero byte; `none` when the buffer has
no zero byte from `off` on (the read leaves the buffer). -/
def cstring (buf : Bytes) (off : Nat) : Option Bytes :=
  if (buf.drop off).any (fun b => b == 0) then
    some ((buf.drop off).takeWhile fun b => b != 0)
  else none

/-- Source `MyFs::get_content`. -/
def get_content (dev : Device) (path_str : Bytes) : Option Bytes :=
  match _getInode dev path_str with
  | none => none
  | some FILE =>
    match _readInodeData dev FILE with
    | none => none
    | some content => cstring content 0

/-- The `for` loop of `list_dir` from `i` on, with `n` iterations left. -/
def list_dir.loop (dev : Device) (rootDirContent : Bytes) :
    Nat → Nat → List dir_list_entry → Option (List dir_list_entry)
  | 0, _, ans => some ans
  | n + 1, i, ans =>
    match cstring rootDirContent (sizeof_DirEntry * i), dirEntryId rootDirContent i with
    | some name, some id =>
      match readInode dev id with
      | none => none
      | some file =>
        list_dir.loop dev rootDirContent n (i + 1)
          (ans ++ [{ name := name, is_dir := file.directory, file_size := toInt32 file.size }])
    | _, _ => none

/-- Source `MyFs::list_dir`. -/
def list_dir (dev : Device) (path_str : Bytes) : Option (List dir_list_entry) :=
  match _getInode dev path_str with
  | none => none
  | some DIR =>
    match _readInodeData dev DIR with
    | none => none
    | some rootDirContent => list_dir.loop dev rootDirContent (DIR.size / sizeof_DirEntry) 0 []

/-! ## Sequences of calls -/

/-- A call of the public interface that changes the device. -/
inductive Call where
  | format
  | create_file (path_str : Bytes) (directory : Bool)
  | set_content (path_str content : Bytes)

/-- The outcome of one call. -/
def Call.run : Call → Device → Outcome Unit
  | .format, dev => MyFs.format dev
  | .create_file p d, dev => MyFs.create_file dev p d
  | .set_content p c, dev => MyFs.set_content dev p c

/-- The device contents after the calls, each of which returned normally. -/
def runCalls : List Call → Device → Option Device
  | [], dev => some dev
  | c :: cs, dev =>
    match c.run dev with
    | .ok _ dev1 => runCalls cs dev1
    | _ => none

/-- The indices that `n` consecutive calls of `_allocate` return. -/
def allocateMany (bitmapStart : Int) : Nat → Device → Option (List Int × Device)
  | 0, dev => some ([], dev)
  | n + 1, dev =>
    match _allocate dev bitmapStart with
    | .ok idx dev1 => (allocateMany bitmapStart n dev1).map fun r => (idx :: r.1, r.2)
    | _ => none

/-- The addresses that `n` consecutive calls of `_allocateBlock` return. -/
def allocateBlocks : Nat → Device → Option (List Int)
  | 0, _ => some []
  | n + 1, dev =>
    match _allocateBlock dev with
    | .ok a dev1 => (allocateBlocks n dev1).map fun r => a :: r
    | _ => none

/-- Bit `n` of the bitmap that starts at `bitmapStart`. -/
def bitSet (dev : Device) (bitmapStart n : Nat) : Bool :=
  (dev (bitmapStart + n / 8) % 256).testBit (n % 8)


/-! ## Device states used in the statements -/

/-- The device contents that `format` leaves (`format_eq`). -/
def formatted (dev : Device) : Device :=
  store (store (store (store dev 0 5 (MYFS_MAGIC ++ [CURR_VERSION])) 5 8137 (List.replicate 8137 0))
    8134 8 (leBytes 8 1)) 8142 64 { Inode.zero with directory := true, id := 0 }.encode

/-- A new device, formatted, with the file "/a" holding "hello". -/
def devHello : Device :=
  (runCalls [.format, .create_file (str "/a") false, .set_content (str "/a") (str "hello")]
    dev0).getD dev0

/-- A device whose block bitmap starts with a full 64-bit word; all other bytes
are zero. -/
def devFullWord : Device := store dev0 5 8 (List.replicate 8 255)

/-- Three files written after `format`: "/a" and "/b" with 192 bytes each, then
"/c" with 192 zero bytes. -/
def callsThreeFiles : List Call :=
  [.format,
   .create_file (str "/a") false, .set_content (str "/a") (List.replicate 192 120),
   .create_file (str "/b") false, .set_content (str "/b") (List.replicate 192 121),
   .create_file (str "/c") false, .set_content (str "/c") (List.replicate 192 0)]

/-- The calls before the shrink of "/a": "/a" gets 11 blocks, "/b" 12, "/c" 7,
and "/c" is shrunk to 6 blocks. -/
def callsBeforeShrink : List Call :=
  [.format,
   .create_file (str "/a") false, .set_content (str "/a") (List.replicate 176 120),
   .create_file (str "/b") false, .set_content (str "/b") (List.replicate 192 121),
   .create_file (str "/c") false, .set_content (str "/c") (List.replicate 112 122),
   .set_content (str "/c") (List.replicate 96 122)]

/-! ## Notions of the later statements -/

/-- Blocks that `size` bytes need: `size / BLOCK_SIZE + (size % BLOCK_SIZE != 0)`. -/
def blocksFor (size : Nat) : Nat := size / BLOCK_SIZE + (if size % BLOCK_SIZE != 0 then 1 else 0)

/-- The values an `int` can hold. -/
def isInt32 (v : Int) : Prop := -2 ^ 31 ≤ v ∧ v < 2 ^ 31

/-- The address table has 12 slots, every slot holds an `int`, and the non-zero
slots are exactly the first `b`. -/
def Leading (l : List Int) (b : Nat) : Prop :=
  l.length = 12 ∧ (∀ k, isInt32 (l.getD k 0)) ∧ ∀ k, k < 12 → (l.getD k 0 ≠ 0 ↔ k < b)

/-- The pointer invariant of an inode: at most 12 blocks are needed for `size`
bytes, the non-zero pointers are exactly the first `blocksFor size` slots, and
the slots behind them are zero. -/
def PointerInvariant (x : Inode) : Prop :=
  blocksFor x.size ≤ DIRECT_POINTERS ∧ x.addresses.length = DIRECT_POINTERS ∧
  ∀ k, k < DIRECT_POINTERS → (x.addresses.getD k 0 ≠ 0 ↔ k < blocksFor x.size)

instance PointerInvariant.decidable (x : Inode) : Decidable (PointerInvariant x) := by
  unfold PointerInvariant
  infer_instance

/-- The directory part of the path of `create_file`: `path_str.substr(0, LAST_DELIMITER)`. -/
def dirPathOf (path_str : Bytes) : Bytes :=
  match find_last_of 47 path_str with
  | none => path_str
  | some k => path_str.take k

/-- Device contents at the moment the exception left the routine. -/
def Outcome.thrownDev? {α : Type} : Outcome α → Option Device
  | .thrown d => some d
  | _ => none

/-- The slots `addresses[usedBlocks]` that the counting loop of
`_reallocateBlocks` reads, in order; the list ends with the first slot that
holds zero or lies outside the table. -/
def _reallocateBlocks.slotsRead (addresses : List Int) : Nat → Nat → List Nat
  | 0, _ => []
  | fuel + 1, usedBlocks =>
    usedBlocks ::
      match addresses[usedBlocks]? with
      | none => []
      | some a =>
        if a ≠ 0 then _reallocateBlocks.slotsRead addresses fuel (usedBlocks + 1) else []

/-- The slots that the loop of `_addFileToFolder` reads with
`address = folder.addresses[pointer]` after `pointer++`. -/
def _addFileToFolder.loopSlotsRead : Nat → Nat → Nat → Nat → List Nat
  | 0, _, _, _ => []
  | fuel + 1, pointer, toWrite, bytesLeft =>
    let bytesLeft1 := bytesLeft - toWrite
    let pointer1 := pointer + 1
    let toWrite1 := if bytesLeft1 > BLOCK_SIZE then BLOCK_SIZE else bytesLeft1
    pointer1 ::
      if bytesLeft1 ≠ 0 then _addFileToFolder.loopSlotsRead fuel pointer1 toWrite1 bytesLeft1
      else []

/-- The slots of `folder.addresses` that `_addFileToFolder` reads after the
resize, for a folder of `size` bytes: `addresses[pointer]` before the loop and
one slot per iteration. -/
def _addFileToFolder.slotsRead (size : Nat) : List Nat :=
  let pointer := size / BLOCK_SIZE % 2 ^ 32
  let bytesLeft := sizeof_DirEntry
  let spaceTakenInLastBlock := size % BLOCK_SIZE
  let emptySpace := BLOCK_SIZE - spaceTakenInLastBlock
  let toWrite := if bytesLeft > emptySpace then emptySpace else bytesLeft
  pointer :: _addFileToFolder.loopSlotsRead (sizeof_DirEntry + 1) pointer toWrite bytesLeft

/-- A device whose block bitmap holds the word `0x7FFFFFFF` (bits 0..30 set);
all other bytes are zero. -/
def devWord31 : Device := store dev0 5 8 (leBytes 8 0x7FFFFFFF)

/-- A new device, formatted, with the file "/a" holding 192 bytes. -/
def callsFullFile : List Call :=
  [.format, .create_file (str "/a") false, .set_content (str "/a") (List.replicate 192 120)]

/-- Twelve files "/fa" .. "/fl" created in the root of a new formatted device. -/
def callsTwelveEntries : List Call :=
  .format :: (List.range 12).map fun k => .create_file (str "/f" ++ [97 + k]) false

/-- Calls after which the first word of the block bitmap is full and the file
"/b" holds block 8 (address 12304) as its only block. -/
def callsBeforeGrow : List Call :=
  [.format, .create_file (str "/a") false, .create_file (str "/b") false,
   .set_content (str "/a") (List.replicate 96 120), .set_content (str "/b") (List.replicate 16 121),
   .create_file (str "/c") false, .set_content (str "/c") (List.replicate 192 122),
   .create_file (str "/d") false, .set_content (str "/d") (List.replicate 144 123)]

/-- Calls after which the first word of the block bitmap is full and block 8
(address 12304) holds the entry of the directory "/d1" in the root. -/
def callsBeforeNested : List Call :=
  [.format, .create_file (str "/a") false, .set_content (str "/a") (List.replicate 112 120),
   .create_file (str "/d1") true,
   .create_file (str "/c") false, .set_content (str "/c") (List.replicate 192 122),
   .create_file (str "/e") false, .set_content (str "/e") (List.replicate 144 123)]

/-- Three files created after `format`; "/a" and "/b" hold 192 bytes each. -/
def callsTwoOfThree : List Call :=
  [.format, .create_file (str "/a") false, .create_file (str "/b") false,
   .create_file (str "/c") false,
   .set_content (str "/a") (List.replicate 192 120),
   .set_content (str "/b") (List.replicate 192 121)]

/-- The calls `create_file(dir + "/a")`, `create_file(dir + "/b")`, ..., `n` files
in the directory `dir`. -/
def createFilesIn (dir : Bytes) (n : Nat) : List Call :=
  (List.range n).map fun k => .create_file (dir ++ [47, 97 + k]) false

/-- `format` and 32 calls of `create_file`: the directories "/p", "/q", "/r" in
the root, 12 files in "/p", 12 in "/q" and 5 in "/r".  The 32nd call takes the
first 8 bytes of the root inode record for a word of the inode bitmap and turns
the id of the root record into 1. -/
def callsRootIdFlipped : List Call :=
  [.format, .create_file (str "/p") true, .create_file (str "/q") true,
    .create_file (str "/r") true]
    ++ createFilesIn (str "/p") 12 ++ createFilesIn (str "/q") 12 ++ createFilesIn (str "/r") 5

/-- The device `devHello` after "/a" was rewritten with 40 bytes. -/
def devHelloGrown : Device :=
  (set_content devHello (str "/a") (List.replicate 40 120)).dev?.getD dev0

/-- The device `devHello` after the file "/b" was created. -/
def devHelloTwo : Device :=
  (create_file devHello (str "/b") false).dev?.getD dev0

/-! ## Memory lemmas and the effect of `format` -/

/-- The loop of `_calcParts` on the built-in device after `k` iterations: the
count of blocks has dropped by one for every started group of 16 bytes, and the
loop stops at byte 8129 of the bitmap. -/
theorem calcParts_loop_eq (n : Nat) : ∀ (k fuel : Nat), k + n = 8129 → n < fuel →
    _calcParts.loop fuel 5 (5 + (k : Int)) (65535 - (((k + 15) / 16 : Nat) : Int)) = 8134 := by
  induction n with
  | zero =>
    intro k fuel hk hf
    obtain ⟨f, rfl⟩ : ∃ f, fuel = f + 1 := ⟨fuel - 1, by omega⟩
    rw [_calcParts.loop, if_neg]
    · omega
    · simp only [BITS_IN_BYTE]
      omega
  | succ n ih =>
    intro k fuel hk hf
    obtain ⟨f, rfl⟩ : ∃ f, fuel = f + 1 := ⟨fuel - 1, by omega⟩
    have h1 : (5 + (k : Int) - 5) = (k : Int) := by omega
    rw [_calcParts.loop, if_pos, h1, ← Int.ofNat_tmod]
    · have h := ih (k + 1) f (by omega) (by omega)
      have h2 : (5 + (k : Int) + 1) = 5 + ((k + 1 : Nat) : Int) := by omega
      have h3 : (if ((k % BLOCK_SIZE : Nat) : Int) = 0
            then (65535 : Int) - (((k + 15) / 16 : Nat) : Int) - 1
            else 65535 - (((k + 15) / 16 : Nat) : Int))
          = 65535 - (((k + 1 + 15) / 16 : Nat) : Int) := by
        simp only [BLOCK_SIZE]
        split <;> omega
      rw [h2, h3]
      exact h
    · simp only [BITS_IN_BYTE]
      omega

theorem _parts_eq_calcParts : _parts = _calcParts := by
  have h := calcParts_loop_eq 8129 0 1048576 (by omega) (by omega)
  have h1 : _calcParts.loop DEVICE_SIZE.toNat (sizeof_myfs_header : Nat) (sizeof_myfs_header : Nat)
      (Int.tdiv (DEVICE_SIZE - sizeof_myfs_header) BLOCK_SIZE) = 8134 := h
  unfold _calcParts
  simp only [h1]
  decide

theorem calcParts_eq_calcPartsOf : _calcParts = _calcPartsOf DEVICE_SIZE := rfl

/-- The loop of `_calcParts` started after `k` iterations with the block count
`A0` of the start: it returns `5 + K` for a `K` that no earlier iteration could
have stopped at, and when the fuel covers the run, the loop condition is false
at `K`, so `K` is the least byte count with `A0 <= 8 * K + ceil(K / 16)`. -/
theorem calcParts_loop_spec (A0 : Int) : ∀ (fuel k : Nat), ∃ K : Nat,
    _calcParts.loop fuel 5 (5 + (k : Int)) (A0 - (((k + 15) / 16 : Nat) : Int)) = 5 + (K : Int) ∧
    k ≤ K ∧
    (K = k ∨ 8 * ((K : Int) - 1) + (((K + 14) / 16 : Nat) : Int) < A0) ∧
    (0 < fuel → 8 * (k : Int) + (((k + 15) / 16 : Nat) : Int) < A0 → k < K) ∧
    (A0 ≤ 8 * (k : Int) + 8 * (fuel : Int) → A0 ≤ 8 * (K : Int) + (((K + 15) / 16 : Nat) : Int)) := by
  intro fuel
  induction fuel with
  | zero =>
    intro k
    refine ⟨k, ?_, le_refl k, Or.inl rfl, ?_, ?_⟩
    · rw [_calcParts.loop]
    · intro h
      omega
    · intro h
      omega
  | succ f ih =>
    intro k
    have h1 : (5 + (k : Int) - 5) = (k : Int) := by omega
    by_cases hc : 8 * (k : Int) + (((k + 15) / 16 : Nat) : Int) < A0
    · obtain ⟨K, hK, hle, hor, _, hstop⟩ := ih (k + 1)
      have h2 : (5 + (k : Int) + 1) = 5 + ((k + 1 : Nat) : Int) := by omega
      have h3 : (if ((k % BLOCK_SIZE : Nat) : Int) = 0
            then A0 - (((k + 15) / 16 : Nat) : Int) - 1
            else A0 - (((k + 15) / 16 : Nat) : Int))
          = A0 - (((k + 1 + 15) / 16 : Nat) : Int) := by
        simp only [BLOCK_SIZE]
        split <;> omega
      refine ⟨K, ?_, by omega, Or.inr ?_, fun _ _ => by omega, fun h => hstop (by omega)⟩
      · rw [_calcParts.loop, if_pos, h1, ← Int.ofNat_tmod, h2, h3]
        · exact hK
        · simp only [BITS_IN_BYTE]
          omega
      · rcases hor with h | h
        · subst h
          have : ((k + 1 + 14) / 16 : Nat) = (k + 15) / 16 := by omega
          omega
        · exact h
    · refine ⟨k, ?_, le_refl k, Or.inl rfl, fun _ h => absurd h hc, fun _ => by omega⟩
      rw [_calcParts.loop, if_neg]
      simp only [BITS_IN_BYTE]
      omega

/-- The offset `inodeBitMap` for the capacity `deviceSize`: the fuel
`deviceSize` covers the run of the loop. -/
theorem calcPartsOf_inodeBitMap (deviceSize : Int) (h : 21 ≤ deviceSize) : ∃ K : Nat,
    (_calcPartsOf deviceSize).inodeBitMap = 5 + (K : Int) ∧ 0 < K ∧
    8 * ((K : Int) - 1) + (((K + 14) / 16 : Nat) : Int) < (deviceSize - 5) / 16 ∧
    (deviceSize - 5) / 16 ≤ 8 * (K : Int) + (((K + 15) / 16 : Nat) : Int) := by
  obtain ⟨K, hK, _, hor, hpos, hstop⟩ := calcParts_loop_spec ((deviceSize - 5) / 16) deviceSize.toNat 0
  have hK0 : 0 < K := hpos (by omega) (by simp; omega)
  refine ⟨K, ?_, hK0, ?_, hstop (by simp; omega)⟩
  · have ht : Int.tdiv (deviceSize - (sizeof_myfs_header : Nat)) (BLOCK_SIZE : Nat)
        = (deviceSize - 5) / 16 :=
      Int.tdiv_eq_ediv (by simp only [sizeof_myfs_header]; omega) (by decide)
    show _calcParts.loop deviceSize.toNat (sizeof_myfs_header : Nat) (sizeof_myfs_header : Nat)
      (Int.tdiv (deviceSize - (sizeof_myfs_header : Nat)) (BLOCK_SIZE : Nat)) = _
    rw [ht]
    simpa using hK
  · rcases hor with h0 | h0
    · omega
    · exact h0

theorem calcPartsOf_fields (deviceSize : Int) (K : Nat)
    (hK : (_calcPartsOf deviceSize).inodeBitMap = 5 + (K : Int))
    (hn : 0 ≤ deviceSize - (5 + (K : Int))) :
    (_calcPartsOf deviceSize).blockBitMap = 5 ∧
    (_calcPartsOf deviceSize).root
      = 5 + (K : Int) + ((deviceSize - (5 + (K : Int))) / 16384 + 7) / 8 ∧
    (_calcPartsOf deviceSize).unused
      = 5 + (K : Int) + ((deviceSize - (5 + (K : Int))) / 16384 + 7) / 8
        + (deviceSize - (5 + (K : Int))) / 16384 * 64 := by
  have hn1 : (0 : Int) ≤ (deviceSize - (5 + (K : Int))) / 16384 := Int.ediv_nonneg hn (by decide)
  have e1 : Int.tdiv (deviceSize - (_calcPartsOf deviceSize).inodeBitMap) (BYTES_PER_INODE : Nat)
      = (deviceSize - (5 + (K : Int))) / 16384 := by
    rw [hK]
    exact Int.tdiv_eq_ediv hn (by decide)
  have e2 : Int.tdiv ((deviceSize - (5 + (K : Int))) / 16384 + (BITS_IN_BYTE : Nat) - 1)
      (BITS_IN_BYTE : Nat) = ((deviceSize - (5 + (K : Int))) / 16384 + 7) / 8 := by
    rw [Int.tdiv_eq_ediv (by simp only [BITS_IN_BYTE]; omega) (by decide)]
    simp only [BITS_IN_BYTE]
    omega
  refine ⟨rfl, ?_, ?_⟩
  · show (_calcPartsOf deviceSize).inodeBitMap
      + Int.tdiv (Int.tdiv (deviceSize - (_calcPartsOf deviceSize).inodeBitMap)
          (BYTES_PER_INODE : Nat) + (BITS_IN_BYTE : Nat) - 1) (BITS_IN_BYTE : Nat) = _
    rw [e1, e2, hK]
  · show (_calcPartsOf deviceSize).inodeBitMap
      + Int.tdiv (Int.tdiv (deviceSize - (_calcPartsOf deviceSize).inodeBitMap)
          (BYTES_PER_INODE : Nat) + (BITS_IN_BYTE : Nat) - 1) (BITS_IN_BYTE : Nat)
      + Int.tdiv (deviceSize - (_calcPartsOf deviceSize).inodeBitMap) (BYTES_PER_INODE : Nat)
        * (sizeof_Inode : Nat) = _
    rw [e1, e2, hK]
    rfl

theorem calcPartsOf_data (deviceSize : Int)
    (h : 0 ≤ deviceSize - (_calcPartsOf deviceSize).unused) :
    (_calcPartsOf deviceSize).data
      = (_calcPartsOf deviceSize).unused + (deviceSize - (_calcPartsOf deviceSize).unused) % 16 := by
  show (_calcPartsOf deviceSize).unused
      + Int.tmod (deviceSize - (_calcPartsOf deviceSize).unused) (BLOCK_SIZE : Nat) = _
  rw [Int.tmod_eq_emod h (by decide)]
  rfl

theorem calcPartsOf_values (deviceSize : Int) (K : Nat) (h21 : 21 ≤ deviceSize)
    (hlow : 8 * ((K : Int) - 1) + (((K + 14) / 16 : Nat) : Int) < (deviceSize - 5) / 16)
    (hhigh : (deviceSize - 5) / 16 ≤ 8 * (K : Int) + (((K + 15) / 16 : Nat) : Int)) :
    (_calcPartsOf deviceSize).inodeBitMap = 5 + (K : Int) := by
  obtain ⟨K1, hK, hK0, hlow1, hhigh1⟩ := calcPartsOf_inodeBitMap deviceSize h21
  have : K1 = K := by omega
  rw [hK, this]

/-- Below 16517 bytes the layout has no inode: for the capacity 16516 the inode
bitmap and the inode table are empty. -/
theorem calcPartsOf_below_minimum :
    (_calcPartsOf 16516).inodeBitMap = 133 ∧ (_calcPartsOf 16516).root = 133 ∧
    (_calcPartsOf 16516).unused = 133 := by
  have h1 := calcPartsOf_values 16516 128 (by omega) (by omega) (by omega)
  have f1 := calcPartsOf_fields 16516 128 h1 (by omega)
  refine ⟨?_, ?_, ?_⟩
  · rw [h1]; decide
  · rw [f1.2.1]; decide
  · rw [f1.2.2]; decide

theorem load_length (dev : Device) (addr size : Nat) : (load dev addr size).length = size := by
  simp [load]

theorem store_of_mem (dev : Device) (addr size : Nat) (data : Bytes) (a : Nat)
    (h1 : addr ≤ a) (h2 : a < addr + size) :
    store dev addr size data a = data.getD (a - addr) 0 % 256 := by
  simp [store, h1, h2]

theorem store_of_not_mem (dev : Device) (addr size : Nat) (data : Bytes) (a : Nat)
    (h : a < addr ∨ addr + size ≤ a) :
    store dev addr size data a = dev a := by
  unfold store
  rw [if_neg]
  omega

theorem load_eq_of_forall (dev1 dev2 : Device) (a1 a2 size : Nat)
    (h : ∀ j, j < size → dev1 (a1 + j) % 256 = dev2 (a2 + j) % 256) :
    load dev1 a1 size = load dev2 a2 size := by
  unfold load
  apply List.map_congr_left
  intro j hj
  exact h j (List.mem_range.mp hj)

theorem load_store_disjoint (dev : Device) (addr size : Nat) (data : Bytes) (b n : Nat)
    (h : b + n ≤ addr ∨ addr + size ≤ b) :
    load (store dev addr size data) b n = load dev b n := by
  apply load_eq_of_forall
  intro j hj
  rw [store_of_not_mem]
  omega

theorem load_eq_replicate_zero (dev : Device) (addr n : Nat)
    (h : ∀ j, j < n → dev (addr + j) % 256 = 0) : load dev addr n = List.replicate n 0 := by
  apply List.ext_getElem
  · simp [load]
  · intro i h1 h2
    simp [load]
    apply h
    simpa [load] using h1

theorem getD_replicate_zero (n k : Nat) : (List.replicate n 0).getD k 0 = 0 := by
  rw [List.getD_eq_getElem?_getD]
  by_cases h : k < n
  · simp [h]
  · simp [h]

theorem write_eq_store (dev : Device) (addr size : Nat) (data : Bytes)
    (h : (addr : Int) + size ≤ DEVICE_SIZE) :
    BlockDeviceSimulator.write dev addr size data = some (store dev addr size data) := by
  unfold BlockDeviceSimulator.write
  rw [if_pos ⟨Int.natCast_nonneg addr, h⟩]
  simp

theorem read_eq_load (dev : Device) (addr size : Nat)
    (h : (addr : Int) + size ≤ DEVICE_SIZE) :
    BlockDeviceSimulator.read dev addr size = some (load dev addr size) := by
  unfold BlockDeviceSimulator.read
  rw [if_pos ⟨Int.natCast_nonneg addr, h⟩]
  simp

theorem Outcome.bind_ok {α β : Type} (v : α) (d : Device) (f : α → Device → Outcome β) :
    (Outcome.ok v d).bind f = f v d := rfl

theorem writeOutcome_eq (dev : Device) (addr size : Nat) (data : Bytes)
    (h : (addr : Int) + size ≤ DEVICE_SIZE) :
    writeOutcome dev addr size data = .ok () (store dev addr size data) := by
  rw [writeOutcome, write_eq_store dev addr size data h]

/-- A bitmap whose first word is zero: `_allocate` sets bit 0 and returns 0. -/
theorem allocate_of_zero_word (dev : Device) (s : Nat) (hs : (s : Int) + (8 : Nat) ≤ DEVICE_SIZE)
    (hz : load dev s 8 = List.replicate 8 0) :
    _allocate dev s = .ok 0 (store dev s 8 (leBytes 8 1)) := by
  have hscan : _allocate.scan dev (DEVICE_SIZE.toNat / 8 + 1) s = some ((s : Int), 0) := by
    show _allocate.scan dev (131072 + 1) s = _
    rw [_allocate.scan, read_eq_load dev s 8 hs, hz]
    rfl
  rw [_allocate, hscan]
  dsimp only
  rw [_allocate.find, show shiftOne 0 = some 1 from rfl]
  dsimp only
  rw [if_pos (by decide), show (0 ^^^ 1 : Nat) = 1 from rfl, writeOutcome_eq dev s 8 _ hs]
  simp [Outcome.bind]


theorem format_scan (dev : Device) :
    load (store dev 5 8137 (List.replicate 8137 0)) 8134 8 = List.replicate 8 0 := by
  apply load_eq_replicate_zero
  intro j hj
  rw [store_of_mem _ _ _ _ _ (by omega) (by omega), getD_replicate_zero]

theorem format_e1 (dev : Device) :
    writeOutcome dev 0 sizeof_myfs_header (MYFS_MAGIC ++ [CURR_VERSION])
    = .ok () (store dev 0 5 (MYFS_MAGIC ++ [CURR_VERSION])) :=
  writeOutcome_eq dev 0 5 _ (by decide)

theorem format_e2 (dev : Device) :
    writeOutcome dev _parts.blockBitMap (_parts.root - _parts.blockBitMap).toNat
      (List.replicate (_parts.root - _parts.blockBitMap).toNat 0)
    = .ok () (store dev 5 8137 (List.replicate 8137 0)) := by
  rw [show (_parts.root - _parts.blockBitMap).toNat = 8137 from by decide]
  exact writeOutcome_eq dev 5 8137 _ (by decide)

theorem format_e3 (dev : Device) :
    _allocateInode (store dev 5 8137 (List.replicate 8137 0))
      = .ok 0 (store (store dev 5 8137 (List.replicate 8137 0)) 8134 8 (leBytes 8 1)) :=
  allocate_of_zero_word (store dev 5 8137 (List.replicate 8137 0)) 8134 (by decide) (format_scan _)

theorem format_e4 (dev : Device) (data : Bytes) :
    writeOutcome dev _parts.root sizeof_Inode data = .ok () (store dev 8142 64 data) :=
  writeOutcome_eq dev 8142 64 _ (by decide)

theorem format_eq (dev : Device) : format dev = .ok () (formatted dev) := by
  rw [format]
  dsimp only
  rw [format_e1, Outcome.bind_ok, format_e2, Outcome.bind_ok, format_e3, Outcome.bind_ok, format_e4]
  rfl

theorem runCalls_format (cs : List Call) (dev : Device) :
    runCalls (.format :: cs) dev = runCalls cs (formatted dev) := by
  rw [runCalls, Call.run, format_eq]

theorem devHello_eq :
    devHello = (runCalls [.create_file (str "/a") false, .set_content (str "/a") (str "hello")]
      (formatted dev0)).getD dev0 := by
  rw [devHello, runCalls_format]

theorem getInode_devHello :
    _getInode devHello (str "/a") = some
      { id := 1, directory := false, size := 5,
        addresses := [12192, 0, 0, 0, 0, 0, 0, 0, 0, 0, 0, 0] } := by
  rw [devHello_eq]
  decide!

theorem getInode_root_devHello :
    _getInode devHello (dirPathOf (str "/b")) = some
      { id := 0, directory := true, size := 16,
        addresses := [12176, 0, 0, 0, 0, 0, 0, 0, 0, 0, 0, 0] } := by
  rw [devHello_eq]
  decide!

theorem formatted_low (dev : Device) (a : Nat) (h : a < 5) :
    formatted dev a = (MYFS_MAGIC ++ [CURR_VERSION]).getD a 0 % 256 := by
  unfold formatted
  rw [store_of_not_mem _ _ _ _ _ (by omega), store_of_not_mem _ _ _ _ _ (by omega),
    store_of_not_mem _ _ _ _ _ (by omega), store_of_mem _ _ _ _ _ (by omega) (by omega)]
  rfl

theorem formatted_bitmaps (dev : Device) (a : Nat) (h1 : 5 ≤ a) (h2 : a < 8142) :
    formatted dev a = if a = 8134 then 1 else 0 := by
  unfold formatted
  rw [store_of_not_mem _ _ _ _ _ (by omega)]
  by_cases h : 8134 ≤ a
  · rw [store_of_mem _ _ _ _ _ h (by omega)]
    obtain ⟨k, rfl⟩ : ∃ k, a = 8134 + k := ⟨a - 8134, by omega⟩
    have hk : k < 8 := by omega
    interval_cases k <;> rfl
  · rw [store_of_not_mem _ _ _ _ _ (by omega), store_of_mem _ _ _ _ _ (by omega) (by omega),
      getD_replicate_zero, if_neg (by omega)]

theorem formatted_root (dev : Device) (a : Nat) (h1 : 8142 ≤ a) (h2 : a < 8142 + 64) :
    formatted dev a
      = { Inode.zero with directory := true, id := 0 }.encode.getD (a - 8142) 0 % 256 := by
  unfold formatted
  rw [store_of_mem _ _ _ _ _ h1 h2]

theorem load_formatted_header (dev : Device) :
    load (formatted dev) 0 5 = MYFS_MAGIC ++ [CURR_VERSION] := by
  show [formatted dev 0 % 256, formatted dev 1 % 256, formatted dev 2 % 256, formatted dev 3 % 256,
    formatted dev 4 % 256] = _
  rw [formatted_low dev 0 (by omega), formatted_low dev 1 (by omega), formatted_low dev 2 (by omega),
    formatted_low dev 3 (by omega), formatted_low dev 4 (by omega)]
  rfl

theorem load_formatted_root (dev : Device) :
    load (formatted dev) 8142 64 = { Inode.zero with directory := true, id := 0 }.encode := by
  apply List.ext_getElem
  · rw [load_length]; rfl
  · intro i h1 h2
    rw [load_length] at h1
    simp only [load, List.getElem_map, List.getElem_range]
    rw [formatted_root dev (8142 + i) (by omega) (by omega), Nat.add_sub_cancel_left]
    interval_cases i <;> rfl

theorem getRootDir_formatted (dev : Device) :
    _getRootDir (formatted dev) = some { Inode.zero with directory := true, id := 0 } := by
  rw [_getRootDir, show _parts.root = ((8142 : Nat) : Int) from rfl,
    read_eq_load _ 8142 sizeof_Inode (by decide), show sizeof_Inode = 64 from rfl, load_formatted_root]
  rfl

theorem list_dir_formatted (dev : Device) : list_dir (formatted dev) (str "/") = some [] := by
  have h : _getInode (formatted dev) (str "/") = some { Inode.zero with directory := true, id := 0 } := by
    rw [_getInode, getRootDir_formatted]
    rfl
  rw [list_dir, h]
  rfl

theorem bitSet_formatted_inode (dev : Device) (n : Nat) (h : n < 64) :
    bitSet (formatted dev) 8134 n = true ↔ n = 0 := by
  unfold bitSet
  rw [formatted_bitmaps dev _ (by omega) (by omega)]
  interval_cases n <;> decide

theorem bitSet_formatted_block (dev : Device) (n : Nat) (h : n < 8 * 8129) :
    bitSet (formatted dev) 5 n = false := by
  unfold bitSet
  rw [formatted_bitmaps dev _ (by omega) (by omega), if_neg (by omega)]
  simp

theorem header_iff (l : Bytes) (h : l.length = 5) :
    (l.take 4 ≠ MYFS_MAGIC ∨ l.getD 4 0 ≠ CURR_VERSION) ↔ l ≠ MYFS_MAGIC ++ [CURR_VERSION] := by
  match l, h with
  | [a, b, c, d, e], _ =>
    simp only [MYFS_MAGIC, CURR_VERSION, List.take, List.getD_cons_succ, List.getD_cons_zero,
      List.cons_append, List.nil_append]
    constructor
    · rintro (h1 | h1) h2
      · apply h1
        simp only [List.cons.injEq] at h2 ⊢
        tauto
      · apply h1
        simp only [List.cons.injEq] at h2
        tauto
    · intro h1
      by_contra h2
      push_neg at h2
      apply h1
      obtain ⟨h3, h4⟩ := h2
      simp only [List.cons.injEq] at h3 ⊢
      tauto

theorem MyFs_eq (dev : Device) :
    MyFs dev = if load dev 0 5 = MYFS_MAGIC ++ [CURR_VERSION] then .ok [] dev
      else .ok ["Did not find myfs instance on blkdev", "Creating...", "Finished!"] (formatted dev) := by
  rw [MyFs, show (0 : Int) = ((0 : Nat) : Int) from rfl, read_eq_load _ 0 _ (by decide)]
  dsimp only
  by_cases h : load dev 0 5 = MYFS_MAGIC ++ [CURR_VERSION]
  · rw [if_pos h, if_neg]
    rw [show sizeof_myfs_header = 5 from rfl, header_iff _ (load_length _ _ _)]
    exact not_not.mpr h
  · rw [if_neg h, if_pos, format_eq]
    · rfl
    · rw [show sizeof_myfs_header = 5 from rfl, header_iff _ (load_length _ _ _)]
      exact h

/-! ## Bytes behind the terminator of a name -/

theorem getElem?_append_cons (pre : Bytes) (x : Nat) (rest : Bytes) :
    (pre ++ x :: rest)[pre.length]? = some x := by
  rw [List.getElem?_append_right (le_refl _), Nat.sub_self, List.getElem?_cons_zero]

/-- The comparison `strcmp` of the name field at the end of `pre` does not depend
on the bytes behind the terminator of the name. -/
theorem strcmpEq_tail (name : Bytes) : ∀ (pre s t1 t2 : Bytes),
    strcmpEq (pre ++ name ++ 0 :: t1) pre.length s
      = strcmpEq (pre ++ name ++ 0 :: t2) pre.length s := by
  induction name with
  | nil =>
    intro pre s t1 t2
    cases s with
    | nil =>
      rw [strcmpEq, strcmpEq]
      simp only [List.append_nil, getElem?_append_cons]
    | cons b s =>
      rw [strcmpEq, strcmpEq]
      simp only [List.append_nil, getElem?_append_cons]
      by_cases hb : b = 0
      · simp [hb]
      · have : ¬ (0 = b) := fun h => hb h.symm
        simp [hb, this]
  | cons c name ih =>
    intro pre s t1 t2
    have e : ∀ t : Bytes, pre ++ (c :: name) ++ 0 :: t = (pre ++ [c]) ++ name ++ 0 :: t := by
      intro t
      simp
    have g : ∀ t : Bytes, (pre ++ (c :: name) ++ 0 :: t)[pre.length]? = some c := by
      intro t
      rw [List.append_assoc, List.cons_append]
      exact getElem?_append_cons pre c _
    cases s with
    | nil =>
      rw [strcmpEq, strcmpEq, g, g]
    | cons b s =>
      rw [strcmpEq, strcmpEq, g, g]
      dsimp only
      by_cases hb : b = 0
      · simp [hb]
      · by_cases hcb : c = b
        · rw [if_neg hb, if_pos hcb, if_neg hb, if_pos hcb, e t1, e t2]
          have := ih (pre ++ [c]) s t1 t2
          simpa using this
        · rw [if_neg hb, if_neg hcb, if_neg hb, if_neg hcb]

/-- The conversion of the name field at the end of `pre` to a `std::string`
yields the name, whatever bytes follow its terminator. -/
theorem cstring_tail (pre name tail : Bytes) (h : ∀ b ∈ name, b ≠ 0) :
    cstring (pre ++ name ++ 0 :: tail) pre.length = some name := by
  have hd : (pre ++ name ++ 0 :: tail).drop pre.length = name ++ 0 :: tail := by
    simp
  rw [cstring, hd, if_pos (by simp)]
  rw [List.takeWhile_append_of_pos (fun a ha => by simpa using h a ha)]
  simp

/-! ## The claims -/

/-- C1, failing input: on a new formatted device with the file "/a",
`set_content("/a", B)` with `B` = 'a', 0, 'b' stores the three bytes (the
buffer of `_readInodeData` holds them), but `get_content("/a")` returns only
"a": the buffer is turned into a `std::string` as a C string and stops at the
first zero byte.  For `B` = "hi", which has no zero byte, the conversion reads
past the two-byte buffer (undefined, `none`). -/
theorem get_content_stops_at_zero_byte :
    (runCalls [.format, .create_file (str "/a") false, .set_content (str "/a") [97, 0, 98]]
        dev0).map
      (fun d => (get_content d (str "/a"), (_getInode d (str "/a")).bind (_readInodeData d)))
      = some (some [97], some [97, 0, 98]) ∧
    (runCalls [.format, .create_file (str "/a") false, .set_content (str "/a") (str "hi")]
        dev0).map
      (fun d => (get_content d (str "/a"), (_getInode d (str "/a")).bind (_readInodeData d)))
      = some (none, some [104, 105]) := by
  rw [runCalls_format, runCalls_format]
  decide!

/-- C2: content longer than 192 bytes (more than 12 blocks of 16 bytes) makes
`set_content` on an existing file throw the size error before any write: the
device contents at the throw are the contents before the call. -/
theorem set_content_too_large (dev : Device) (path_str content : Bytes) (file : Inode)
    (hfile : _getInode dev path_str = some file) (hlen : 192 < content.length) :
    set_content dev path_str content = .thrown dev := by
  rw [set_content, hfile]
  dsimp only
  have h : content.length / BLOCK_SIZE + (if content.length % BLOCK_SIZE != 0 then 1 else 0)
      > DIRECT_POINTERS := by
    simp only [BLOCK_SIZE, DIRECT_POINTERS]
    by_cases h0 : content.length % 16 = 0
    · simp only [h0, bne_self_eq_false, Bool.false_eq_true, if_false]
      omega
    · have h1 : (content.length % 16 != 0) = true := by simpa using h0
      simp only [h1, if_true]
      omega
  rw [_reallocateBlocks]
  simp only [if_pos h, Outcome.bind]

/-- Witness of C2: the file "/a" of `devHello` holds "hello" in one block; a
write of 193 bytes throws and the device is `devHello` as before. -/
theorem set_content_too_large_witness :
    _getInode devHello (str "/a") = some
      { id := 1, directory := false, size := 5,
        addresses := [12192, 0, 0, 0, 0, 0, 0, 0, 0, 0, 0, 0] } ∧
    192 < (List.replicate 193 120).length ∧
    set_content devHello (str "/a") (List.replicate 193 120) = .thrown devHello :=
  ⟨getInode_devHello, by decide,
    set_content_too_large devHello (str "/a") (List.replicate 193 120)
      { id := 1, directory := false, size := 5,
        addresses := [12192, 0, 0, 0, 0, 0, 0, 0, 0, 0, 0, 0] } getInode_devHello (by decide)⟩

/-- C3, failing input: 33 consecutive calls of `_allocate` on the zeroed block
bitmap of a new device return 0, 1, ..., 31 and then 8 again.  The 32nd call
(`i = 31`) sets bits 31..63 at once, and the 33rd call takes bit 0 of the second
word and returns byte offset 8 plus bit 0, the index the 9th call returned. -/
theorem allocate_33_repeats_index :
    (allocateMany _parts.blockBitMap 33 dev0).map (fun r => r.1)
      = some [0, 1, 2, 3, 4, 5, 6, 7, 8, 9, 10, 11, 12, 13, 14, 15, 16, 17, 18, 19, 20, 21, 22, 23,
          24, 25, 26, 27, 28, 29, 30, 31, 8] := by
  decide!

/-- C4, failing input: the bitmap at address 5 starts with a full word (bytes
5..12 are 255, byte 13 and the rest 0).  `_allocate` sets bit 0 of byte 13 and
returns 8; `_deallocate` of index 8 flips bit 0 of byte 6.  Bytes 6 and 13 differ
from their values before the allocate. -/
theorem allocate_deallocate_changes_bitmap :
    load devFullWord 5 16 = [255, 255, 255, 255, 255, 255, 255, 255, 0, 0, 0, 0, 0, 0, 0, 0] ∧
    ((_allocate devFullWord 5).bind fun idx d =>
      (_deallocate d 5 idx).bind fun _ d2 => .ok (idx, load d2 5 16) d2).val?
      = some (8, [255, 254, 255, 255, 255, 255, 255, 255, 1, 0, 0, 0, 0, 0, 0, 0]) := by
  decide!

/-- C5, failing input: after `format` on a new device the files "/a", "/b" and
"/c" are created in "/" and written with 192 bytes each (`callsThreeFiles`).
`list_dir("/")` then returns the entries "a", "" (a directory of size 48: the
root itself) and "c": the block that holds the entry of "/b" was handed out a
second time by `_allocateBlock` and overwritten with content of "/c". -/
theorem list_dir_after_block_reuse :
    (runCalls callsThreeFiles dev0).bind (fun d => list_dir d (str "/"))
      = some [{ name := str "a", is_dir := false, file_size := 192 },
              { name := [], is_dir := true, file_size := 48 },
              { name := str "c", is_dir := false, file_size := 192 }] := by
  rw [show callsThreeFiles = Call.format :: callsThreeFiles.tail from rfl, runCalls_format]
  decide!

/-- The example of C5: on a new formatted device, after
`create_file("/a", false)`, `create_file("/b", true)`, `create_file("/b/c", false)`
the listing of "/" is a (file), b (directory) and the listing of "/b" is
c (file). -/
theorem list_dir_example :
    (runCalls [.format, .create_file (str "/a") false, .create_file (str "/b") true,
        .create_file (str "/b/c") false] dev0).map
      (fun d => (list_dir d (str "/"), list_dir d (str "/b")))
      = some (some [{ name := str "a", is_dir := false, file_size := 0 },
                    { name := str "b", is_dir := true, file_size := 16 }],
              some [{ name := str "c", is_dir := false, file_size := 0 }]) := by
  rw [runCalls_format]
  decide!

/-- C6, failing input: after `callsBeforeShrink` the file "/a" has 11 blocks,
block 8 (address 12304) among them, and bit 8 of the block bitmap is clear,
because "/c" was handed block 8 a second time and has freed it.  Shrinking "/a"
from 176 to 112 bytes (11 to 7 blocks) zeroes the four trailing pointer slots and
clears bits 9, 10, 11, but flips bit 8 back to set; the next six
`_allocateBlock` calls return 12320, 12336, 12352 twice and never 12304. -/
theorem shrink_leaves_block_bit_set :
    (runCalls callsBeforeShrink dev0).map
      (fun d => (_getInode d (str "/a"), bitSet d 5 8))
      = some (some { id := 1, directory := false, size := 176,
                     addresses := [12192, 12208, 12224, 12240, 12256, 12272, 12288, 12304, 12320,
                       12336, 12352, 0] },
              false) ∧
    (runCalls (callsBeforeShrink ++ [.set_content (str "/a") (List.replicate 112 120)]) dev0).map
      (fun d => (_getInode d (str "/a"),
        [bitSet d 5 8, bitSet d 5 9, bitSet d 5 10, bitSet d 5 11], allocateBlocks 6 d))
      = some (some { id := 1, directory := false, size := 112,
                     addresses := [12192, 12208, 12224, 12240, 12256, 12272, 12288, 0, 0, 0, 0, 0] },
              [true, false, false, false],
              some [12320, 12336, 12352, 12320, 12336, 12352]) := by
  rw [show callsBeforeShrink = Call.format :: callsBeforeShrink.tail from rfl, List.cons_append, runCalls_format, runCalls_format]
  decide!

/-- The example of C6 on a new formatted device: "/a" shrinks from 100 bytes
(blocks 1..7) to 10 bytes; the pointer slots 1..6 are zeroed, bits 2..7 of the
block bitmap are cleared, and the next six `_allocateBlock` calls return the
freed addresses. -/
theorem shrink_example :
    (runCalls [.format, .create_file (str "/a") false,
        .set_content (str "/a") (List.replicate 100 120),
        .set_content (str "/a") (List.replicate 10 120)] dev0).map
      (fun d => (_getInode d (str "/a"), load d 5 1, allocateBlocks 6 d))
      = some (some { id := 1, directory := false, size := 10,
                     addresses := [12192, 0, 0, 0, 0, 0, 0, 0, 0, 0, 0, 0] },
              [3],
              some [12208, 12224, 12240, 12256, 12272, 12288]) := by
  rw [runCalls_format]
  decide!

/-- A file of 192 bytes has 12 non-zero pointers: the count of used blocks in
`_reallocateBlocks` reads `addresses[12]`, and a following `set_content`, here a
shrink to 10 bytes, is undefined. -/
theorem shrink_of_full_file_undefined :
    (runCalls [.format, .create_file (str "/a") false,
        .set_content (str "/a") (List.replicate 192 120)] dev0).map
      (fun d => ((set_content d (str "/a") (List.replicate 10 120)).isUndefined,
        (_getInode d (str "/a")).map (fun i => _reallocateBlocks.countUsed i.addresses 13 0)))
      = some (true, some none) := by
  rw [runCalls_format]
  decide!

/-- C7: for every prior device content `format` returns normally and leaves a
valid header (magic "MYFS", current version), the root inode (id 0, directory,
size 0, all pointers zero) at the root offset, an empty listing of "/", exactly
bit 0 set in the inode bitmap and no bit set in the block bitmap. -/
theorem format_resets (dev : Device) :
    ∃ dev1, format dev = .ok () dev1 ∧
      BlockDeviceSimulator.read dev1 0 sizeof_myfs_header = some (MYFS_MAGIC ++ [CURR_VERSION]) ∧
      _getRootDir dev1 = some
        { id := 0, directory := true, size := 0, addresses := List.replicate DIRECT_POINTERS 0 } ∧
      list_dir dev1 (str "/") = some [] ∧
      (∀ n, n < 8 * (_parts.root - _parts.inodeBitMap).toNat →
        (bitSet dev1 _parts.inodeBitMap.toNat n = true ↔ n = 0)) ∧
      (∀ n, n < 8 * (_parts.inodeBitMap - _parts.blockBitMap).toNat →
        bitSet dev1 _parts.blockBitMap.toNat n = false) := by
  refine ⟨formatted dev, format_eq dev, ?_, getRootDir_formatted dev, list_dir_formatted dev, ?_, ?_⟩
  · rw [show (0 : Int) = ((0 : Nat) : Int) from rfl, read_eq_load _ 0 _ (by decide)]
    exact congrArg some (load_formatted_header dev)
  · intro n hn
    exact bitSet_formatted_inode dev n hn
  · intro n hn
    exact bitSet_formatted_block dev n hn

/-- C8: the constructor leaves a device with a valid header (magic "MYFS",
version 3) untouched and prints nothing; with any other header it runs `format`
and prints its three lines; constructing again on the result never formats and
leaves every byte as it is. -/
theorem constructor_idempotent (dev : Device) :
    (BlockDeviceSimulator.read dev 0 sizeof_myfs_header = some (MYFS_MAGIC ++ [CURR_VERSION]) →
      MyFs dev = .ok [] dev) ∧
    (BlockDeviceSimulator.read dev 0 sizeof_myfs_header ≠ some (MYFS_MAGIC ++ [CURR_VERSION]) →
      ∃ dev1, format dev = .ok () dev1 ∧
        MyFs dev = .ok ["Did not find myfs instance on blkdev", "Creating...", "Finished!"] dev1) ∧
    (∀ lines dev1, MyFs dev = .ok lines dev1 → MyFs dev1 = .ok [] dev1) := by
  have hr : ∀ d : Device, BlockDeviceSimulator.read d 0 sizeof_myfs_header = some (load d 0 5) :=
    fun d => read_eq_load d 0 5 (by decide)
  refine ⟨?_, ?_, ?_⟩
  · intro h
    rw [hr] at h
    rw [MyFs_eq, if_pos (Option.some.inj h)]
  · intro h
    rw [hr] at h
    refine ⟨formatted dev, format_eq dev, ?_⟩
    rw [MyFs_eq, if_neg]
    intro h1
    exact h (congrArg some h1)
  · intro lines dev1 h
    rw [MyFs_eq] at h
    by_cases h1 : load dev 0 5 = MYFS_MAGIC ++ [CURR_VERSION]
    · rw [if_pos h1] at h
      injection h with _ h2
      subst h2
      rw [MyFs_eq, if_pos h1]
    · rw [if_neg h1] at h
      injection h with _ h2
      subst h2
      rw [MyFs_eq, if_pos (load_formatted_header dev)]

/-- The layout of the built-in 1 MiB device, the capacity the program runs
with: the five offsets are strictly increasing behind the 5-byte header, lie
inside the device, and the data offset is a multiple of the block size. -/
theorem calcParts_regions :
    (sizeof_myfs_header : Int) ≤ _calcParts.blockBitMap ∧
    _calcParts.blockBitMap < _calcParts.inodeBitMap ∧
    _calcParts.inodeBitMap < _calcParts.root ∧
    _calcParts.root < _calcParts.unused ∧
    _calcParts.unused < _calcParts.data ∧
    _calcParts.data < DEVICE_SIZE ∧
    _calcParts.data % BLOCK_SIZE = 0 := by
  rw [← _parts_eq_calcParts]
  decide

/-- C9, counterexample: for the capacity 393216 the padding region is empty,
`unused = data = 4528`, so the offsets are not strictly increasing; for the
capacity 1048577 the data offset is 12177, not a multiple of the block size. -/
theorem calcPartsOf_padding_empty :
    (_calcPartsOf 393216).unused = 4528 ∧ (_calcPartsOf 393216).data = 4528 ∧
    ¬ ((_calcPartsOf 393216).unused < (_calcPartsOf 393216).data) ∧
    (_calcPartsOf 1048577).data = 12177 ∧ (_calcPartsOf 1048577).data % BLOCK_SIZE ≠ 0 := by
  have h1 := calcPartsOf_values 393216 3048 (by omega) (by omega) (by omega)
  have f1 := calcPartsOf_fields 393216 3048 h1 (by omega)
  have u1 : (_calcPartsOf 393216).unused = 4528 := by rw [f1.2.2]; decide
  have d1 : (_calcPartsOf 393216).data = 4528 := by
    rw [calcPartsOf_data 393216 (by rw [u1]; decide), u1]; decide
  have h2 := calcPartsOf_values 1048577 8129 (by omega) (by omega) (by omega)
  have f2 := calcPartsOf_fields 1048577 8129 h2 (by omega)
  have u2 : (_calcPartsOf 1048577).unused = 12174 := by rw [f2.2.2]; decide
  have d2 : (_calcPartsOf 1048577).data = 12177 := by
    rw [calcPartsOf_data 1048577 (by rw [u2]; decide), u2]; decide
  refine ⟨u1, d1, ?_, d2, ?_⟩
  · rw [u1, d1]; decide
  · rw [d2]; decide

/-- C9 as amended: for every capacity of at least 16517 bytes the offsets satisfy
header size <= blockBitMap < inodeBitMap < root < unused <= data < capacity, the
data area spans a whole number of blocks, and the data offset is a multiple of
the block size exactly when the capacity is. -/
theorem calcPartsOf_regions (deviceSize : Int) (hmin : 16517 ≤ deviceSize) :
    (sizeof_myfs_header : Int) ≤ (_calcPartsOf deviceSize).blockBitMap ∧
    (_calcPartsOf deviceSize).blockBitMap < (_calcPartsOf deviceSize).inodeBitMap ∧
    (_calcPartsOf deviceSize).inodeBitMap < (_calcPartsOf deviceSize).root ∧
    (_calcPartsOf deviceSize).root < (_calcPartsOf deviceSize).unused ∧
    (_calcPartsOf deviceSize).unused ≤ (_calcPartsOf deviceSize).data ∧
    (_calcPartsOf deviceSize).data < deviceSize ∧
    (deviceSize - (_calcPartsOf deviceSize).data) % BLOCK_SIZE = 0 ∧
    ((_calcPartsOf deviceSize).data % BLOCK_SIZE = 0 ↔ deviceSize % BLOCK_SIZE = 0) := by
  obtain ⟨K, hK, hK0, hlow, hhigh⟩ := calcPartsOf_inodeBitMap deviceSize (by omega)
  have hn : 0 ≤ deviceSize - (5 + (K : Int)) := by omega
  obtain ⟨hb, hr, hu⟩ := calcPartsOf_fields deviceSize K hK hn
  have hd := calcPartsOf_data deviceSize (by rw [hu]; omega)
  rw [hd, hu, hr, hK, hb]
  simp only [sizeof_myfs_header, BLOCK_SIZE]
  refine ⟨by omega, by omega, by omega, by omega, by omega, by omega, by omega, by omega⟩

/-- Witness of C9 as amended: the built-in capacity `DEVICE_SIZE`. -/
theorem calcPartsOf_regions_witness :
    (16517 : Int) ≤ DEVICE_SIZE ∧
    (sizeof_myfs_header : Int) ≤ (_calcPartsOf DEVICE_SIZE).blockBitMap ∧
    (_calcPartsOf DEVICE_SIZE).blockBitMap < (_calcPartsOf DEVICE_SIZE).inodeBitMap ∧
    (_calcPartsOf DEVICE_SIZE).inodeBitMap < (_calcPartsOf DEVICE_SIZE).root ∧
    (_calcPartsOf DEVICE_SIZE).root < (_calcPartsOf DEVICE_SIZE).unused ∧
    (_calcPartsOf DEVICE_SIZE).unused ≤ (_calcPartsOf DEVICE_SIZE).data ∧
    (_calcPartsOf DEVICE_SIZE).data < DEVICE_SIZE ∧
    (DEVICE_SIZE - (_calcPartsOf DEVICE_SIZE).data) % BLOCK_SIZE = 0 ∧
    ((_calcPartsOf DEVICE_SIZE).data % BLOCK_SIZE = 0 ↔ DEVICE_SIZE % BLOCK_SIZE = 0) :=
  ⟨by decide, calcPartsOf_regions DEVICE_SIZE (by decide)⟩

/-- C10, failing input: bit 0 of a zeroed bitmap is clear; `_deallocate` of
index 0 flips it to set (byte 1), and a second `_deallocate` clears it again, so
one call and two calls differ. -/
theorem deallocate_sets_clear_bit :
    load dev0 5 1 = [0] ∧
    (_deallocate dev0 5 0).dev?.map (fun d => load d 5 1) = some [1] ∧
    ((_deallocate dev0 5 0).bind fun _ d => _deallocate d 5 0).dev?.map (fun d => load d 5 1)
      = some [0] := by
  decide!

/-! ## Lemmas on the inode record and the resize -/

theorem leBytes_four (u : Nat) :
    leBytes 4 u = [u % 256, u / 256 % 256, u / 65536 % 256, u / 16777216 % 256] := by
  simp [leBytes, List.range, List.range.loop]

theorem leBytes_eight (u : Nat) :
    leBytes 8 u = [u % 256, u / 256 % 256, u / 65536 % 256, u / 16777216 % 256,
      u / 4294967296 % 256, u / 1099511627776 % 256, u / 281474976710656 % 256,
      u / 72057594037927936 % 256] := by
  simp [leBytes, List.range, List.range.loop]

theorem leNat_leBytes_four (u : Nat) : leNat (leBytes 4 u) = u % 4294967296 := by
  rw [leBytes_four]
  simp only [leNat]
  omega

theorem leNat_leBytes_eight (u : Nat) : leNat (leBytes 8 u) = u % 18446744073709551616 := by
  rw [leBytes_eight]
  simp only [leNat]
  omega

theorem toInt32_ofInt32 (v : Int) (h : isInt32 v) : toInt32 (ofInt32 v % 4294967296) = v := by
  unfold isInt32 at h
  unfold toInt32 ofInt32
  have h1 : (2 : Int) ^ 31 = 2147483648 := by norm_num
  have h2 : (2 : Int) ^ 32 = 4294967296 := by norm_num
  have h3 : (2 : Nat) ^ 31 = 2147483648 := by norm_num
  have h4 : (2 : Nat) ^ 32 = 4294967296 := by norm_num
  rw [h1] at h
  simp only [h1, h2, h3, h4]
  split <;> omega

theorem isInt32_toInt32 (u : Nat) : isInt32 (toInt32 u) := by
  unfold isInt32 toInt32
  have h1 : (2 : Int) ^ 31 = 2147483648 := by norm_num
  have h2 : (2 : Int) ^ 32 = 4294967296 := by norm_num
  have h3 : (2 : Nat) ^ 31 = 2147483648 := by norm_num
  have h4 : (2 : Nat) ^ 32 = 4294967296 := by norm_num
  simp only [h1, h2, h3, h4]
  split <;> omega

theorem list_length_twelve {α : Type} (l : List α) (h : l.length = 12) :
    ∃ a0 a1 a2 a3 a4 a5 a6 a7 a8 a9 a10 a11, l = [a0, a1, a2, a3, a4, a5, a6, a7, a8, a9, a10, a11] := by
  match l, h with
  | [a0, a1, a2, a3, a4, a5, a6, a7, a8, a9, a10, a11], _ => exact ⟨_, _, _, _, _, _, _, _, _, _, _, _, rfl⟩

theorem encode_length (x : Inode) : x.encode.length = 64 := by
  have h : ((x.addresses ++ List.replicate DIRECT_POINTERS 0).take DIRECT_POINTERS).length = 12 := by
    simp [DIRECT_POINTERS]
  obtain ⟨a0, a1, a2, a3, a4, a5, a6, a7, a8, a9, a10, a11, h1⟩ := list_length_twelve _ h
  unfold Inode.encode
  rw [h1]
  simp [leBytes_four, leBytes_eight]

theorem encode_mod (x : Inode) : x.encode.map (fun b => b % 256) = x.encode := by
  have h : ((x.addresses ++ List.replicate DIRECT_POINTERS 0).take DIRECT_POINTERS).length = 12 := by
    simp [DIRECT_POINTERS]
  obtain ⟨a0, a1, a2, a3, a4, a5, a6, a7, a8, a9, a10, a11, h1⟩ := list_length_twelve _ h
  unfold Inode.encode
  rw [h1]
  cases x.directory <;> simp [leBytes_four, leBytes_eight]

theorem decode_encode_size (x : Inode) (hsize : x.size < 2 ^ 64) :
    (Inode.decode x.encode).size = x.size := by
  unfold Inode.encode Inode.decode
  simp only [leBytes_four]
  simp only [List.cons_append, List.nil_append, List.drop_succ_cons, List.drop_zero, List.append_assoc]
  rw [List.take_left' (by simp [leBytes_eight]), leNat_leBytes_eight]
  norm_num at hsize
  omega

theorem toInt32_leNat_four (v : Int) (h : isInt32 v) :
    toInt32 (leNat [ofInt32 v % 256, ofInt32 v / 256 % 256, ofInt32 v / 65536 % 256,
      ofInt32 v / 16777216 % 256]) = v := by
  rw [← leBytes_four, leNat_leBytes_four, toInt32_ofInt32 v h]

theorem decode_encode_addresses (x : Inode) (hlen : x.addresses.length = 12)
    (haddr : ∀ a, a ∈ x.addresses → isInt32 a) :
    (Inode.decode x.encode).addresses = x.addresses := by
  obtain ⟨a0, a1, a2, a3, a4, a5, a6, a7, a8, a9, a10, a11, h1⟩ := list_length_twelve _ hlen
  unfold Inode.encode Inode.decode
  rw [h1] at haddr ⊢
  simp only [leBytes_eight, DIRECT_POINTERS, leBytes_four]
  simp only [List.cons_append, List.nil_append, List.drop_succ_cons, List.drop_zero, List.append_assoc,
    List.take_succ_cons, List.take_zero, List.flatMap_cons, List.flatMap_nil, List.range, List.range.loop,
    List.map_cons, List.map_nil, List.replicate, List.take_append_of_le_length, List.length_cons,
    List.length_nil, List.take_left', mul_zero, mul_one, add_zero, Nat.reduceMul, Nat.reduceAdd,
    List.append_nil, List.take_nil]
  rw [toInt32_leNat_four a0 (haddr _ (by simp)), toInt32_leNat_four a1 (haddr _ (by simp)),
    toInt32_leNat_four a2 (haddr _ (by simp)), toInt32_leNat_four a3 (haddr _ (by simp)),
    toInt32_leNat_four a4 (haddr _ (by simp)), toInt32_leNat_four a5 (haddr _ (by simp)),
    toInt32_leNat_four a6 (haddr _ (by simp)), toInt32_leNat_four a7 (haddr _ (by simp)),
    toInt32_leNat_four a8 (haddr _ (by simp)), toInt32_leNat_four a9 (haddr _ (by simp)),
    toInt32_leNat_four a10 (haddr _ (by simp)), toInt32_leNat_four a11 (haddr _ (by simp))]

theorem load_store_same (dev : Device) (addr size : Nat) (data : Bytes) (h : size = data.length) :
    load (store dev addr size data) addr size = data.map (fun b => b % 256) := by
  apply List.ext_getElem
  · simp [load, h]
  · intro i h1 h2
    rw [load_length] at h1
    simp only [load, List.getElem_map, List.getElem_range]
    rw [store_of_mem _ _ _ _ _ (by omega) (by omega), Nat.add_sub_cancel_left,
      List.getD_eq_getElem _ _ (by omega)]
    simp

theorem bind_eq_ok {α β : Type} (x : Outcome α) (f : α → Device → Outcome β) (v : β) (d : Device)
    (h : x.bind f = .ok v d) : ∃ v1 d1, x = .ok v1 d1 ∧ f v1 d1 = .ok v d := by
  cases x with
  | ok v1 d1 => exact ⟨v1, d1, rfl, h⟩
  | thrown d1 => simp [Outcome.bind] at h
  | undefined => simp [Outcome.bind] at h

theorem writeOutcome_ok (dev dev1 : Device) (addr : Int) (size : Nat) (data : Bytes)
    (h : writeOutcome dev addr size data = .ok () dev1) :
    0 ≤ addr ∧ addr + size ≤ DEVICE_SIZE ∧ dev1 = store dev addr.toNat size data := by
  unfold writeOutcome BlockDeviceSimulator.write at h
  by_cases hr : 0 ≤ addr ∧ addr + size ≤ DEVICE_SIZE
  · rw [if_pos hr] at h
    simp only [Outcome.ok.injEq, true_and] at h
    exact ⟨hr.1, hr.2, h.symm⟩
  · rw [if_neg hr] at h
    simp at h

theorem scan_range (dev : Device) (fuel : Nat) (s addr : Int) (buf : Nat)
    (h : _allocate.scan dev fuel s = some (addr, buf)) : s ≤ addr ∧ 0 ≤ addr ∧ addr + 8 ≤ DEVICE_SIZE := by
  induction fuel generalizing s with
  | zero => simp [_allocate.scan] at h
  | succ n ih =>
    rw [_allocate.scan] at h
    unfold BlockDeviceSimulator.read at h
    by_cases hr : 0 ≤ s ∧ s + (8 : Nat) ≤ DEVICE_SIZE
    · rw [if_pos hr] at h
      dsimp only at h
      split at h
      · have := ih _ h
        omega
      · simp only [Option.some.injEq, Prod.mk.injEq] at h
        obtain ⟨h1, _⟩ := h
        subst h1
        exact ⟨le_refl _, hr.1, hr.2⟩
    · rw [if_neg hr] at h
      simp at h

theorem find_range (dev dev1 : Device) (s addr idx : Int) (buf n i : Nat)
    (h : _allocate.find dev s addr buf n i = .ok idx dev1) :
    idx = addr ∨ ∃ j, j ≤ 31 ∧ idx = addr - s + (j : Nat) := by
  induction n generalizing i with
  | zero =>
    rw [_allocate.find] at h
    simp only [Outcome.ok.injEq] at h
    exact Or.inl h.1.symm
  | succ n ih =>
    rw [_allocate.find] at h
    by_cases hi : i < 31
    · rw [shiftOne, if_pos hi] at h
      dsimp only at h
      split at h
      · obtain ⟨_, d1, _, h2⟩ := bind_eq_ok _ _ _ _ h
        simp only [Outcome.ok.injEq] at h2
        exact Or.inr ⟨i, by omega, h2.1.symm⟩
      · exact ih _ h
    · by_cases hi2 : i = 31
      · rw [shiftOne, if_neg hi, if_pos hi2] at h
        dsimp only at h
        split at h
        · obtain ⟨_, d1, _, h2⟩ := bind_eq_ok _ _ _ _ h
          simp only [Outcome.ok.injEq] at h2
          exact Or.inr ⟨i, by omega, h2.1.symm⟩
        · exact ih _ h
      · rw [shiftOne, if_neg hi, if_neg hi2] at h
        simp at h

theorem allocate_range (dev dev1 : Device) (s idx : Int) (hs : 0 ≤ s)
    (h : _allocate dev s = .ok idx dev1) : 0 ≤ idx ∧ idx ≤ DEVICE_SIZE + 31 := by
  unfold _allocate at h
  split at h
  · simp at h
  · rename_i addr buf hscan
    have h1 := scan_range _ _ _ _ _ hscan
    rcases find_range _ _ _ _ _ _ _ _ h with h2 | ⟨j, hj, h2⟩
    · omega
    · omega

theorem allocateBlock_range (dev dev1 : Device) (a : Int) (h : _allocateBlock dev = .ok a dev1) :
    a ≠ 0 ∧ isInt32 a := by
  unfold _allocateBlock at h
  obtain ⟨idx, d1, h1, h2⟩ := bind_eq_ok _ _ _ _ h
  have h3 := allocate_range _ _ _ _ (by decide) h1
  simp only [Outcome.ok.injEq] at h2
  obtain ⟨h4, _⟩ := h2
  have h5 : DEVICE_SIZE = 1048576 := by decide
  have h6 : _parts.data = 12176 := rfl
  have h7 : ((BLOCK_SIZE : Nat) : Int) = 16 := rfl
  rw [h5] at h3
  rw [h6, h7] at h4
  unfold isInt32
  have h8 : (2 : Int) ^ 31 = 2147483648 := by norm_num
  rw [h8]
  omega

theorem getD_set (l : List Int) (u k : Nat) (a : Int) :
    (l.set u a).getD k 0 = if k = u ∧ u < l.length then a else l.getD k 0 := by
  rw [List.getD_eq_getElem?_getD, List.getD_eq_getElem?_getD, List.getElem?_set]
  by_cases h : u = k
  · subst h
    by_cases h2 : u < l.length
    · simp [h2]
    · simp [h2]
      rw [List.getElem?_eq_none (by omega)]
      rfl
  · rw [if_neg h, if_neg]
    intro h3
    exact h h3.1.symm

theorem countUsed_spec (l : List Int) (fuel u r : Nat)
    (h : _reallocateBlocks.countUsed l fuel u = some r) :
    u ≤ r ∧ r < l.length ∧ l.getD r 0 = 0 ∧ ∀ k, u ≤ k → k < r → l.getD k 0 ≠ 0 := by
  induction fuel generalizing u with
  | zero => simp [_reallocateBlocks.countUsed] at h
  | succ n ih =>
    rw [_reallocateBlocks.countUsed] at h
    split at h
    · simp at h
    · rename_i a ha
      have hu : u < l.length := by
        by_contra hc
        rw [List.getElem?_eq_none (by omega)] at ha
        simp at ha
      have hg : l.getD u 0 = a := by
        rw [List.getD_eq_getElem?_getD, ha]
        rfl
      by_cases h0 : a ≠ 0
      · rw [if_pos h0] at h
        obtain ⟨h1, h2, h3, h4⟩ := ih _ h
        refine ⟨by omega, h2, h3, ?_⟩
        intro k hk1 hk2
        by_cases hku : k = u
        · rw [hku, hg]
          exact h0
        · exact h4 k (by omega) hk2
      · rw [if_neg h0] at h
        simp only [Option.some.injEq] at h
        subst h
        refine ⟨le_refl _, hu, ?_, ?_⟩
        · rw [hg]
          exact not_not.mp h0
        · intro k hk1 hk2
          omega

theorem grow_spec (n : Nat) (dev dev1 : Device) (inode inode1 : Inode) (used : Nat)
    (h : _reallocateBlocks.grow n dev inode used = .ok inode1 dev1) :
    inode1.id = inode.id ∧ inode1.size = inode.size ∧
    inode1.addresses.length = inode.addresses.length ∧
    (∀ k, k < used ∨ used + n ≤ k → inode1.addresses.getD k 0 = inode.addresses.getD k 0) ∧
    (∀ k, used ≤ k → k < used + n → k < inode.addresses.length →
      inode1.addresses.getD k 0 ≠ 0 ∧ isInt32 (inode1.addresses.getD k 0)) := by
  induction n generalizing dev inode used with
  | zero =>
    rw [_reallocateBlocks.grow] at h
    simp only [Outcome.ok.injEq] at h
    obtain ⟨h1, _⟩ := h
    subst h1
    refine ⟨rfl, rfl, rfl, fun _ _ => rfl, ?_⟩
    intro k h1 h2
    omega
  | succ n ih =>
    rw [_reallocateBlocks.grow] at h
    obtain ⟨a, d1, h1, h2⟩ := bind_eq_ok _ _ _ _ h
    obtain ⟨ha0, ha1⟩ := allocateBlock_range _ _ _ h1
    obtain ⟨i1, i2, i3, i4, i5⟩ := ih _ _ _ h2
    simp only [List.length_set] at i3 i5
    refine ⟨i1, i2, i3, ?_, ?_⟩
    · intro k hk
      rw [i4 k (by omega), getD_set, if_neg (by omega)]
    · intro k hk1 hk2 hk3
      by_cases hku : k = used
      · rw [i4 k (by omega), getD_set, if_pos ⟨hku, by omega⟩]
        exact ⟨ha0, ha1⟩
      · exact i5 k (by omega) (by omega) hk3

theorem shrink_spec (n : Nat) (dev dev1 : Device) (inode inode1 : Inode) (used : Nat)
    (h : _reallocateBlocks.shrink n dev inode used = .ok inode1 dev1) :
    n ≤ used ∧ inode1.id = inode.id ∧ inode1.size = inode.size ∧
    inode1.addresses.length = inode.addresses.length ∧
    (∀ k, k < used - n ∨ used ≤ k → inode1.addresses.getD k 0 = inode.addresses.getD k 0) ∧
    (∀ k, used - n ≤ k → k < used → inode1.addresses.getD k 0 = 0) := by
  induction n generalizing dev inode used with
  | zero =>
    rw [_reallocateBlocks.shrink] at h
    simp only [Outcome.ok.injEq] at h
    obtain ⟨h1, _⟩ := h
    subst h1
    refine ⟨Nat.zero_le _, rfl, rfl, rfl, fun _ _ => rfl, ?_⟩
    intro k h1 h2
    omega
  | succ n ih =>
    cases used with
    | zero => simp [_reallocateBlocks.shrink] at h
    | succ u =>
      rw [_reallocateBlocks.shrink] at h
      split at h
      · simp at h
      · rename_i a ha
        have hu : u < inode.addresses.length := by
          by_contra hc
          rw [List.getElem?_eq_none (by omega)] at ha
          simp at ha
        obtain ⟨_, d1, _, h2⟩ := bind_eq_ok _ _ _ _ h
        obtain ⟨i0, i1, i2, i3, i4, i5⟩ := ih _ _ _ h2
        simp only [List.length_set] at i3
        refine ⟨by omega, i1, i2, i3, ?_, ?_⟩
        · intro k hk
          rw [i4 k (by omega), getD_set, if_neg (by omega)]
        · intro k hk1 hk2
          by_cases hku : k = u
          · rw [i4 k (by omega), getD_set, if_pos ⟨hku, hu⟩]
          · exact i5 k (by omega) (by omega)

theorem isInt32_zero : isInt32 0 := by
  unfold isInt32
  norm_num

theorem reallocateBlocks_eq (dev : Device) (inode : Inode) (newSize : Nat) :
    _reallocateBlocks dev inode newSize =
      if blocksFor newSize > DIRECT_POINTERS then .thrown dev
      else
        match _reallocateBlocks.countUsed inode.addresses (DIRECT_POINTERS + 1) 0 with
        | none => .undefined
        | some usedBlocks =>
          if blocksFor newSize > usedBlocks then
            _reallocateBlocks.grow (blocksFor newSize - usedBlocks) dev inode usedBlocks
          else if blocksFor newSize < usedBlocks then
            _reallocateBlocks.shrink (usedBlocks - blocksFor newSize) dev inode usedBlocks
          else .ok inode dev := rfl

theorem reallocateBlocks_spec (dev dev1 : Device) (inode inode1 : Inode) (newSize b : Nat)
    (hl : Leading inode.addresses b) (h : _reallocateBlocks dev inode newSize = .ok inode1 dev1) :
    inode1.id = inode.id ∧ inode1.size = inode.size ∧ blocksFor newSize ≤ 12 ∧
      Leading inode1.addresses (blocksFor newSize) := by
  obtain ⟨hlen, hint, hlead⟩ := hl
  rw [reallocateBlocks_eq] at h
  by_cases hreq : blocksFor newSize > DIRECT_POINTERS
  · rw [if_pos hreq] at h
    simp at h
  · rw [if_neg hreq] at h
    have hreq2 : blocksFor newSize ≤ 12 := by
      simpa [DIRECT_POINTERS] using hreq
    cases hused : _reallocateBlocks.countUsed inode.addresses (DIRECT_POINTERS + 1) 0 with
    | none =>
      rw [hused] at h
      simp at h
    | some used =>
      rw [hused] at h
      dsimp only at h
      obtain ⟨_, c2, c3, c4⟩ := countUsed_spec _ _ _ _ hused
      rw [hlen] at c2
      have hub : used = b := by
        have h1 : ¬ used < b := by
          intro hc
          exact (hlead used c2).mpr hc c3
        by_contra hne
        have h2 : b < used := by omega
        have h3 := c4 b (Nat.zero_le _) h2
        have h4 := (hlead b (by omega)).mp h3
        omega
      subst hub
      by_cases hgt : blocksFor newSize > used
      · rw [if_pos hgt] at h
        obtain ⟨g1, g2, g3, g4, g5⟩ := grow_spec _ _ _ _ _ _ h
        refine ⟨g1, g2, hreq2, by rw [g3, hlen], ?_, ?_⟩
        · intro k
          by_cases hk : k < used ∨ used + (blocksFor newSize - used) ≤ k
          · rw [g4 k hk]
            exact hint k
          · by_cases hk12 : k < 12
            · exact (g5 k (by omega) (by omega) (by omega)).2
            · rw [List.getD_eq_default _ _ (by omega)]
              exact isInt32_zero
        · intro k hk
          by_cases hk1 : k < used
          · rw [g4 k (Or.inl hk1)]
            constructor
            · intro _
              omega
            · intro _
              exact (hlead k hk).mpr hk1
          · by_cases hk2 : k < blocksFor newSize
            · constructor
              · intro _
                exact hk2
              · intro _
                exact (g5 k (by omega) (by omega) (by omega)).1
            · rw [g4 k (Or.inr (by omega))]
              constructor
              · intro hne
                have := (hlead k hk).mp hne
                omega
              · intro hc
                omega
      · rw [if_neg hgt] at h
        by_cases hlt : blocksFor newSize < used
        · rw [if_pos hlt] at h
          obtain ⟨_, s1, s2, s3, s4, s5⟩ := shrink_spec _ _ _ _ _ _ h
          refine ⟨s1, s2, hreq2, by rw [s3, hlen], ?_, ?_⟩
          · intro k
            by_cases hk : k < used - (used - blocksFor newSize) ∨ used ≤ k
            · rw [s4 k hk]
              exact hint k
            · rw [s5 k (by omega) (by omega)]
              exact isInt32_zero
          · intro k hk
            by_cases hk1 : k < blocksFor newSize
            · rw [s4 k (Or.inl (by omega))]
              constructor
              · intro _
                exact hk1
              · intro _
                exact (hlead k hk).mpr (by omega)
            · by_cases hk2 : k < used
              · rw [s5 k (by omega) hk2]
                constructor
                · intro hc
                  exact absurd rfl hc
                · intro hc
                  omega
              · rw [s4 k (Or.inr (by omega))]
                constructor
                · intro hne
                  have := (hlead k hk).mp hne
                  omega
                · intro hc
                  omega
        · rw [if_neg hlt] at h
          simp only [Outcome.ok.injEq] at h
          obtain ⟨h1, _⟩ := h
          subst h1
          have : blocksFor newSize = used := by omega
          rw [this]
          exact ⟨rfl, rfl, by omega, hlen, hint, hlead⟩

theorem decode_wf (bs : Bytes) :
    isInt32 (Inode.decode bs).id ∧ (Inode.decode bs).addresses.length = 12 ∧
    ∀ k, isInt32 ((Inode.decode bs).addresses.getD k 0) := by
  refine ⟨isInt32_toInt32 _, by simp [Inode.decode, DIRECT_POINTERS], ?_⟩
  intro k
  unfold Inode.decode
  dsimp only
  rw [List.getD_eq_getElem?_getD, List.getElem?_map]
  cases h : (List.range DIRECT_POINTERS)[k]? with
  | none => exact isInt32_zero
  | some j => exact isInt32_toInt32 _

theorem readInode_decoded (dev : Device) (id : Int) (x : Inode)
    (h : readInode dev id = some x) : ∃ bs, x = Inode.decode bs := by
  unfold readInode at h
  cases hr : BlockDeviceSimulator.read dev (_getInodeAddress id) sizeof_Inode with
  | none => rw [hr] at h; simp at h
  | some bs =>
    rw [hr] at h
    simp only [Option.map_some', Option.some.injEq] at h
    exact ⟨bs, h.symm⟩

theorem getInode_loop_decoded (dev : Device) (fuel : Nat) (path : Bytes) (nd : Option Nat)
    (inode file : Inode) (hi : ∃ bs, inode = Inode.decode bs)
    (h : _getInode.loop dev fuel path nd inode = some file) : ∃ bs, file = Inode.decode bs := by
  induction fuel generalizing path nd inode with
  | zero => simp [_getInode.loop] at h
  | succ n ih =>
    cases nd with
    | none =>
      rw [_getInode.loop] at h
      simp only [Option.some.injEq] at h
      subst h
      exact hi
    | some k =>
      rw [_getInode.loop] at h
      cases h1 : _readInodeData dev inode with
      | none => rw [h1] at h; simp at h
      | some dirContent =>
        rw [h1] at h
        dsimp only at h
        split at h
        · simp at h
        · split at h
          · simp at h
          · split at h
            · simp at h
            · rename_i inode1 h4
              exact ih _ _ _ (readInode_decoded _ _ _ h4) h

theorem getInode_decoded (dev : Device) (path : Bytes) (file : Inode)
    (h : _getInode dev path = some file) : ∃ bs, file = Inode.decode bs := by
  unfold _getInode at h
  cases hr : _getRootDir dev with
  | none => rw [hr] at h; simp at h
  | some root =>
    rw [hr] at h
    dsimp only at h
    have hroot : ∃ bs, root = Inode.decode bs := by
      unfold _getRootDir at hr
      cases hb : BlockDeviceSimulator.read dev _parts.root sizeof_Inode with
      | none => rw [hb] at hr; simp at hr
      | some bs =>
        rw [hb] at hr
        simp only [Option.map_some', Option.some.injEq] at hr
        exact ⟨bs, hr.symm⟩
    by_cases hp : path = [47]
    · rw [if_pos hp] at h
      simp only [Option.some.injEq] at h
      subst h
      exact hroot
    · rw [if_neg hp] at h
      exact getInode_loop_decoded _ _ _ _ _ _ hroot h

/-- The record that `_writeInode` stored is the one `readInode` returns. -/
theorem readInode_writeInode (dev dev1 : Device) (x : Inode) (hsize : x.size < 2 ^ 64)
    (hlen : x.addresses.length = 12) (hint : ∀ k, isInt32 (x.addresses.getD k 0))
    (h : _writeInode dev x = .ok () dev1) :
    ∃ y, readInode dev1 x.id = some y ∧ y.size = x.size ∧ y.addresses = x.addresses := by
  unfold _writeInode at h
  obtain ⟨h0, h1, h2⟩ := writeOutcome_ok _ _ _ _ _ h
  have hmem : ∀ a, a ∈ x.addresses → isInt32 a := by
    intro a ha
    obtain ⟨k, hk, hka⟩ := List.mem_iff_getElem.mp ha
    have := hint k
    rw [List.getD_eq_getElem _ _ hk, hka] at this
    exact this
  refine ⟨Inode.decode x.encode, ?_, decode_encode_size x hsize, decode_encode_addresses x hlen hmem⟩
  unfold readInode BlockDeviceSimulator.read
  rw [if_pos ⟨h0, h1⟩, h2]
  simp only [Option.map_some', Option.some.injEq]
  rw [show sizeof_Inode = 64 from rfl, load_store_same _ _ _ _ (encode_length x).symm, encode_mod]

theorem addFileToFolder_loop_spec (file : Bytes) (fuel : Nat) (dev dev1 : Device)
    (folder folder1 : Inode) (pointer : Nat) (address : Option Int) (toWrite written bytesLeft : Nat)
    (hle : toWrite ≤ bytesLeft)
    (h : _addFileToFolder.loop file fuel dev folder pointer address toWrite written bytesLeft
      = .ok folder1 dev1) :
    folder1.id = folder.id ∧ folder1.addresses = folder.addresses ∧
    folder1.size = (folder.size + bytesLeft) % 2 ^ 64 := by
  induction fuel generalizing dev folder pointer address toWrite written bytesLeft with
  | zero => simp [_addFileToFolder.loop] at h
  | succ n ih =>
    cases address with
    | none => simp [_addFileToFolder.loop] at h
    | some a =>
      rw [_addFileToFolder.loop] at h
      obtain ⟨_, d1, _, h2⟩ := bind_eq_ok _ _ _ _ h
      by_cases hb : bytesLeft - toWrite ≠ 0
      · rw [if_pos hb] at h2
        obtain ⟨i1, i2, i3⟩ := ih _ _ _ _ _ _ _ (by split <;> omega) h2
        refine ⟨i1, i2, ?_⟩
        rw [i3]
        dsimp only
        omega
      · rw [if_neg hb] at h2
        simp only [Outcome.ok.injEq] at h2
        obtain ⟨h3, _⟩ := h2
        subst h3
        refine ⟨rfl, rfl, ?_⟩
        dsimp only
        have : toWrite = bytesLeft := by omega
        rw [this]

theorem blocksFor_le (n : Nat) (h : blocksFor n ≤ 12) : n ≤ 192 := by
  unfold blocksFor at h
  simp only [BLOCK_SIZE] at h
  by_cases h0 : n % 16 = 0
  · simp only [h0, bne_self_eq_false, Bool.false_eq_true, if_false] at h
    omega
  · have h1 : (n % 16 != 0) = true := by simpa using h0
    simp only [h1, if_true] at h
    omega

theorem leading_of_invariant (bs : Bytes) (h : PointerInvariant (Inode.decode bs)) :
    Leading (Inode.decode bs).addresses (blocksFor (Inode.decode bs).size) := by
  obtain ⟨_, h2, h3⟩ := decode_wf bs
  exact ⟨h2, h3, h.2.2⟩

theorem invariant_of_leading (y : Inode) (h : Leading y.addresses (blocksFor y.size))
    (hb : blocksFor y.size ≤ 12) : PointerInvariant y :=
  ⟨hb, h.1, h.2.2⟩

theorem set_content_stored (dev dev1 : Device) (path_str content : Bytes) (file : Inode)
    (hget : _getInode dev path_str = some file) (hinv : PointerInvariant file)
    (hok : set_content dev path_str content = .ok () dev1) :
    ∃ file1, readInode dev1 file.id = some file1 ∧ file1.size = content.length ∧
      PointerInvariant file1 := by
  obtain ⟨bs, rfl⟩ := getInode_decoded _ _ _ hget
  have hl := leading_of_invariant bs hinv
  rw [set_content, hget] at hok
  dsimp only at hok
  obtain ⟨f1, d1, h1, h2⟩ := bind_eq_ok _ _ _ _ hok
  obtain ⟨_, d2, _, h3⟩ := bind_eq_ok _ _ _ _ h2
  obtain ⟨r1, _, r2, r3⟩ := reallocateBlocks_spec _ _ _ _ _ _ hl h1
  have hsz := blocksFor_le _ r2
  obtain ⟨y, y1, y2, y3⟩ := readInode_writeInode d2 dev1 { f1 with size := content.length }
    (by dsimp only; norm_num; omega) r3.1 r3.2.1 h3
  dsimp only at y1 y2 y3
  rw [r1] at y1
  refine ⟨y, y1, y2, invariant_of_leading y ?_ ?_⟩
  · rw [y2, y3]
    exact r3
  · rw [y2]
    exact r2

theorem create_file_eq (dev : Device) (path_str : Bytes) (directory : Bool) :
    create_file dev path_str directory =
      match _getInode dev (dirPathOf path_str) with
      | none => .undefined
      | some dir =>
        (_allocateInode dev).bind fun id dev1 =>
          (_writeInode dev1 { Inode.zero with id := id, directory := directory }).bind fun _ dev2 =>
            (_addFileToFolder dev2
              { name := ((match find_last_of 47 path_str with
                    | none => path_str
                    | some k => path_str.drop (k + 1)) ++ List.replicate FILE_NAME_LEN 0).take
                  (FILE_NAME_LEN - 1)
                id := id } dir).bind fun _ dev3 => .ok () dev3 := rfl

theorem create_file_stored (dev dev1 : Device) (path_str : Bytes) (directory : Bool) (dir : Inode)
    (hget : _getInode dev (dirPathOf path_str) = some dir)
    (hinv : PointerInvariant dir)
    (hok : create_file dev path_str directory = .ok () dev1) :
    ∃ dir1, readInode dev1 dir.id = some dir1 ∧ dir1.size = dir.size + sizeof_DirEntry ∧
      PointerInvariant dir1 := by
  obtain ⟨bs, rfl⟩ := getInode_decoded _ _ _ hget
  have hl := leading_of_invariant bs hinv
  have hds := blocksFor_le _ hinv.1
  rw [create_file_eq, hget] at hok
  dsimp only at hok
  obtain ⟨id, d1, _, h2⟩ := bind_eq_ok _ _ _ _ hok
  obtain ⟨_, d2, _, h3⟩ := bind_eq_ok _ _ _ _ h2
  obtain ⟨folder2, d3, h4, hfin⟩ := bind_eq_ok _ _ _ _ h3
  simp only [Outcome.ok.injEq, true_and] at hfin
  subst hfin
  rw [_addFileToFolder] at h4
  dsimp only at h4
  obtain ⟨folder1, d4, h5, h6⟩ := bind_eq_ok _ _ _ _ h4
  obtain ⟨folder3, d5, h7, h8⟩ := bind_eq_ok _ _ _ _ h6
  obtain ⟨_, d6, h9, h10⟩ := bind_eq_ok _ _ _ _ h8
  simp only [Outcome.ok.injEq] at h10
  obtain ⟨h11, h12⟩ := h10
  subst h11 h12
  have hmod : ((Inode.decode bs).size + sizeof_DirEntry) % 2 ^ 64
      = (Inode.decode bs).size + sizeof_DirEntry := by
    apply Nat.mod_eq_of_lt
    simp only [sizeof_DirEntry]
    norm_num
    omega
  rw [hmod] at h5
  obtain ⟨r1, r2, r3, r4⟩ := reallocateBlocks_spec _ _ _ _ _ _ hl h5
  obtain ⟨l1, l2, l3⟩ := addFileToFolder_loop_spec _ _ _ _ _ _ _ _ _ _ _ (by split <;> omega) h7
  rw [r2] at l3
  rw [show sizeof_DirEntry = 16 from rfl] at l3 hmod r3 r4 ⊢
  have l4 : folder3.size = (Inode.decode bs).size + 16 := by
    rw [l3]
    exact hmod
  obtain ⟨y, y1, y2, y3⟩ := readInode_writeInode d5 d6 folder3
    (by rw [l4]; norm_num; omega) (by rw [l2]; exact r4.1) (by rw [l2]; exact r4.2.1) h9
  rw [l1, r1] at y1
  refine ⟨y, y1, by rw [y2, l4], invariant_of_leading y ?_ ?_⟩
  · rw [y2, y3, l4, l2]
    exact r4
  · rw [y2, l4]
    exact r3

theorem bind_not_thrown {α β : Type} (x : Outcome α) (f : α → Device → Outcome β)
    (hx : ∀ d, x ≠ .thrown d) (hf : ∀ v d1 d, f v d1 ≠ .thrown d) : ∀ d, x.bind f ≠ .thrown d := by
  intro d
  cases x with
  | ok v d1 => exact hf v d1 d
  | thrown d1 => exact absurd rfl (hx d1)
  | undefined => simp [Outcome.bind]

theorem writeOutcome_not_thrown (dev : Device) (addr : Int) (size : Nat) (data : Bytes) :
    ∀ d, writeOutcome dev addr size data ≠ .thrown d := by
  intro d
  unfold writeOutcome
  split <;> simp

theorem find_not_thrown (dev : Device) (s addr : Int) (buf n i : Nat) :
    ∀ d, _allocate.find dev s addr buf n i ≠ .thrown d := by
  induction n generalizing i with
  | zero =>
    intro d
    simp [_allocate.find]
  | succ n ih =>
    intro d
    rw [_allocate.find]
    split
    · simp
    · split
      · exact bind_not_thrown _ _ (writeOutcome_not_thrown _ _ _ _) (fun _ _ _ => by simp) d
      · exact ih _ d

theorem allocateBlock_not_thrown (dev : Device) : ∀ d, _allocateBlock dev ≠ .thrown d := by
  unfold _allocateBlock
  apply bind_not_thrown
  · intro d
    unfold _allocate
    split
    · simp
    · exact find_not_thrown _ _ _ _ _ _ d
  · intro _ _ _
    simp

theorem deallocateBlock_not_thrown (dev : Device) (a : Int) :
    ∀ d, _deallocateBlock dev a ≠ .thrown d := by
  intro d
  unfold _deallocateBlock _deallocate
  dsimp only
  split
  · simp
  · split
    · simp
    · exact writeOutcome_not_thrown _ _ _ _ d

theorem grow_not_thrown (n : Nat) (dev : Device) (inode : Inode) (used : Nat) :
    ∀ d, _reallocateBlocks.grow n dev inode used ≠ .thrown d := by
  induction n generalizing dev inode used with
  | zero =>
    intro d
    simp [_reallocateBlocks.grow]
  | succ n ih =>
    rw [_reallocateBlocks.grow]
    exact bind_not_thrown _ _ (allocateBlock_not_thrown dev) (fun _ _ => ih _ _ _)

theorem shrink_not_thrown (n : Nat) (dev : Device) (inode : Inode) (used : Nat) :
    ∀ d, _reallocateBlocks.shrink n dev inode used ≠ .thrown d := by
  induction n generalizing dev inode used with
  | zero =>
    intro d
    simp [_reallocateBlocks.shrink]
  | succ n ih =>
    cases used with
    | zero =>
      intro d
      simp [_reallocateBlocks.shrink]
    | succ u =>
      rw [_reallocateBlocks.shrink]
      intro d
      split
      · simp
      · exact bind_not_thrown _ _ (deallocateBlock_not_thrown _ _) (fun _ _ => ih _ _ _) d

theorem blocksFor_gt_iff (n : Nat) : blocksFor n > DIRECT_POINTERS ↔ 192 < n := by
  unfold blocksFor
  simp only [BLOCK_SIZE, DIRECT_POINTERS]
  by_cases h0 : n % 16 = 0
  · simp only [h0, bne_self_eq_false, Bool.false_eq_true, if_false]
    omega
  · have h1 : (n % 16 != 0) = true := by simpa using h0
    simp only [h1, if_true]
    omega

/-- The size limit of `_reallocateBlocks` is exact: the routine throws if and
only if `newSize > 192`, and it throws before any write. -/
theorem reallocateBlocks_thrown_iff (dev : Device) (inode : Inode) (newSize : Nat) :
    ((∃ d, _reallocateBlocks dev inode newSize = .thrown d) ↔ 192 < newSize) ∧
    (192 < newSize → _reallocateBlocks dev inode newSize = .thrown dev) := by
  have hthrow : 192 < newSize → _reallocateBlocks dev inode newSize = .thrown dev := by
    intro h
    rw [reallocateBlocks_eq, if_pos ((blocksFor_gt_iff newSize).mpr h)]
  refine ⟨⟨?_, fun h => ⟨dev, hthrow h⟩⟩, hthrow⟩
  rintro ⟨d, hd⟩
  by_contra hn
  rw [reallocateBlocks_eq, if_neg (fun hc => hn ((blocksFor_gt_iff newSize).mp hc))] at hd
  split at hd
  · simp at hd
  · split at hd
    · exact grow_not_thrown _ _ _ _ d hd
    · split at hd
      · exact shrink_not_thrown _ _ _ _ d hd
      · simp at hd

theorem getInode_root (dev : Device) : _getInode dev (str "/") = _getRootDir dev := by
  unfold _getInode
  cases _getRootDir dev with
  | none => rfl
  | some inode => rfl

theorem ok_of_isSome (x : Outcome Unit) (h : x.dev?.isSome = true) :
    x = .ok () (x.dev?.getD dev0) := by
  cases x with
  | ok v d => rfl
  | thrown d => simp [Outcome.dev?] at h
  | undefined => simp [Outcome.dev?] at h

/-! ## The claims on resize, directories and allocation -/

/-- C11, failing input: the file "/a" of 192 bytes on a new formatted device has
12 non-zero pointers and satisfies the pointer invariant; `_reallocateBlocks` on
its inode with `newSize = 192` or `newSize = 10`, both within the limit, does
not return: the loop that counts the used blocks has no bound and reads
`addresses[12]` (undefined).  The limit itself is exact
(`reallocateBlocks_thrown_iff`). -/
theorem reallocateBlocks_full_table_undefined :
    (runCalls callsFullFile dev0).map
      (fun d => (_getInode d (str "/a")).map fun i =>
        (i, decide (PointerInvariant i), (_reallocateBlocks d i 192).isUndefined,
          (_reallocateBlocks d i 10).isUndefined))
      = some (some ({ id := 1, directory := false, size := 192,
                      addresses := [12192, 12208, 12224, 12240, 12256, 12272, 12288, 12304, 12320,
                        12336, 12352, 12368] }, true, true, true)) := by
  rw [show callsFullFile = Call.format :: callsFullFile.tail from rfl, runCalls_format]
  decide!

/-- C12, failing input: the root of a new formatted device holds the 12 entries
"fa" .. "fl".  `create_file("/x", false)` throws the size error, and the device
at the throw differs from the device before the call: bit 13 of the inode bitmap
is set (byte 8135 goes from 31 to 63) and the record of inode 13 at address 8974
holds id 13. -/
theorem create_file_full_directory_leaves_inode :
    (runCalls callsTwelveEntries dev0).map
      (fun d => ((list_dir d (str "/")).map List.length, load d 8134 2, load d 8974 8,
        (create_file d (str "/x") false).thrownDev?.map fun d2 => (load d2 8134 2, load d2 8974 8)))
      = some (some 12, [255, 31], [0, 0, 0, 0, 0, 0, 0, 0],
          some ([255, 63], [13, 0, 0, 0, 0, 0, 0, 0])) := by
  rw [show callsTwelveEntries = Call.format :: callsTwelveEntries.tail from rfl, runCalls_format]
  decide!

/-- C13, failing inputs: on `devFullWord` the first word that is not all ones is
the second, its lowest clear bit is bit 64 of the bitmap, and bit 8 is already
set; `_allocate` sets bit 64 and returns 8.  On `devWord31` the lowest clear bit
is bit 31; `_allocate` returns 31 and sets bits 31..63, all eight bytes of the
word become 255. -/
theorem allocate_returns_wrong_position :
    [bitSet devFullWord 5 8, bitSet devFullWord 5 64] = [true, false] ∧
    ((_allocate devFullWord 5).bind fun n d => .ok (n, bitSet d 5 64, load d 5 16) d).val?
      = some (8, true, [255, 255, 255, 255, 255, 255, 255, 255, 1, 0, 0, 0, 0, 0, 0, 0]) ∧
    load devWord31 5 8 = [255, 255, 255, 127, 0, 0, 0, 0] ∧
    ((_allocate devWord31 5).bind fun n d => .ok (n, load d 5 8) d).val?
      = some (31, [255, 255, 255, 255, 255, 255, 255, 255]) := by
  decide!

/-- The part of the pointer invariant that holds for every device, about the
record that `_writeInode` writes, the slot named by the id field of the resolved
inode.  If the inode that the path resolves to satisfies the invariant and
`set_content` returns normally, the record in the slot of its id field has size
`len(B)` and satisfies the invariant; if the inode of the parent directory
satisfies the invariant and `create_file` returns normally, the record in the
slot of its id field has its size grown by `sizeof(DirEntry)` and satisfies the
invariant.  The slot of the id field need not be the record the path resolves
to (the failing input of C14). -/
theorem pointer_invariant_preserved :
    (∀ (dev dev1 : Device) (path_str content : Bytes) (file : Inode),
      _getInode dev path_str = some file → PointerInvariant file →
      set_content dev path_str content = .ok () dev1 →
      ∃ file1, readInode dev1 file.id = some file1 ∧ file1.size = content.length ∧
        PointerInvariant file1) ∧
    (∀ (dev dev1 : Device) (path_str : Bytes) (directory : Bool) (dir : Inode),
      _getInode dev (dirPathOf path_str) = some dir → PointerInvariant dir →
      create_file dev path_str directory = .ok () dev1 →
      ∃ dir1, readInode dev1 dir.id = some dir1 ∧ dir1.size = dir.size + sizeof_DirEntry ∧
        PointerInvariant dir1) :=
  ⟨set_content_stored, create_file_stored⟩

/-- An instance of `pointer_invariant_preserved` on `devHello`: the file "/a"
(5 bytes, one block) is rewritten with 40 bytes, and the file "/b" is created in
the root, which holds one entry. -/
theorem pointer_invariant_preserved_witness :
    (_getInode devHello (str "/a") = some
        { id := 1, directory := false, size := 5,
          addresses := [12192, 0, 0, 0, 0, 0, 0, 0, 0, 0, 0, 0] } ∧
      ∃ file1, readInode devHelloGrown 1 = some file1 ∧ file1.size = 40 ∧
        PointerInvariant file1) ∧
    (_getInode devHello (dirPathOf (str "/b")) = some
        { id := 0, directory := true, size := 16,
          addresses := [12176, 0, 0, 0, 0, 0, 0, 0, 0, 0, 0, 0] } ∧
      ∃ dir1, readInode devHelloTwo 0 = some dir1 ∧ dir1.size = 16 + sizeof_DirEntry ∧
        PointerInvariant dir1) :=
  ⟨⟨getInode_devHello,
    pointer_invariant_preserved.1 devHello devHelloGrown (str "/a") (List.replicate 40 120)
      { id := 1, directory := false, size := 5,
        addresses := [12192, 0, 0, 0, 0, 0, 0, 0, 0, 0, 0, 0] }
      getInode_devHello (by decide) (ok_of_isSome _ (by rw [devHello_eq]; decide!))⟩,
   ⟨getInode_root_devHello,
    pointer_invariant_preserved.2 devHello devHelloTwo (str "/b") false
      { id := 0, directory := true, size := 16,
        addresses := [12176, 0, 0, 0, 0, 0, 0, 0, 0, 0, 0, 0] }
      getInode_root_devHello (by decide) (ok_of_isSome _ (by rw [devHello_eq]; decide!))⟩⟩

/-- C14, failing input: after `callsRootIdFlipped` the path of the root resolves
to the record at the root offset, which has id field 1, size 48 and three
pointers and satisfies the pointer invariant, and slot 1 of the inode table holds
the inode of the directory "/p" (size 192).  `create_file("/z", false)` returns
normally.  The record that the root resolves to has size 48 as before (its id
field is 3 now): `_writeInode` wrote the grown inode of the parent, size 64 and
four pointers, into slot 1, over the inode of "/p". -/
theorem create_file_root_record_not_grown :
    (runCalls callsRootIdFlipped dev0).map
      (fun d =>
        [_getInode d (dirPathOf (str "/z")), readInode d 1,
         (create_file d (str "/z") false).dev?.bind fun d1 => _getInode d1 (dirPathOf (str "/z")),
         (create_file d (str "/z") false).dev?.bind fun d1 => readInode d1 1])
      = some [some { id := 1, directory := true, size := 48,
                     addresses := [12176, 12192, 12208, 0, 0, 0, 0, 0, 0, 0, 0, 0] },
              some { id := 1, directory := true, size := 192,
                     addresses := [12224, 12240, 12256, 12272, 12288, 12304, 12320, 12336, 12352,
                       12368, 12384, 12400] },
              some { id := 3, directory := true, size := 48,
                     addresses := [12176, 12192, 12208, 0, 0, 0, 0, 0, 0, 0, 0, 0] },
              some { id := 1, directory := true, size := 64,
                     addresses := [12176, 12192, 12208, 12304, 0, 0, 0, 0, 0, 0, 0, 0] }] ∧
    PointerInvariant { id := 1, directory := true, size := 48,
                       addresses := [12176, 12192, 12208, 0, 0, 0, 0, 0, 0, 0, 0, 0] } := by
  rw [show callsRootIdFlipped = Call.format :: callsRootIdFlipped.tail from rfl, runCalls_format]
  decide!

/-- C15, failing input: after `callsBeforeGrow` the first word of the block
bitmap is full and "/b" holds block 8 (address 12304).  `set_content("/b", B)`
with `B` = 16 bytes 'p' and 16 bytes 'q' returns normally; `_allocateBlock`
hands out address 12304 again, both pointers of "/b" are 12304, the second chunk
is written over the first, and `_readInodeData` yields 32 bytes 'q'. -/
theorem set_content_same_block_twice :
    (runCalls callsBeforeGrow dev0).map
      (fun d => (_getInode d (str "/b"), load d 5 9,
        (set_content d (str "/b") (List.replicate 16 112 ++ List.replicate 16 113)).dev?.map
          fun d1 => (_getInode d1 (str "/b"), (_getInode d1 (str "/b")).bind (_readInodeData d1))))
      = some (some { id := 2, directory := false, size := 16,
                     addresses := [12304, 0, 0, 0, 0, 0, 0, 0, 0, 0, 0, 0] },
              [255, 255, 255, 255, 255, 255, 255, 255, 0],
              some (some { id := 2, directory := false, size := 32,
                           addresses := [12304, 12304, 0, 0, 0, 0, 0, 0, 0, 0, 0, 0] },
                    some (List.replicate 32 113))) := by
  rw [show callsBeforeGrow = Call.format :: callsBeforeGrow.tail from rfl, runCalls_format]
  decide!

/-- C16, failing input: after `callsBeforeNested` the directory "/d1" exists and
is empty.  `create_file("/d1/x", false)` returns normally and writes the record
of inode 5, but `_allocateBlock` hands out block 8 again, which holds the entry
of "/d1" in the root: the root now lists a, x, c, e, and neither "/d1/x" nor
"/d1" resolves (the scan for "d1" runs off the directory buffer). -/
theorem getInode_after_create_in_reused_block :
    (runCalls callsBeforeNested dev0).bind (fun d => _getInode d (str "/d1"))
      = some { id := 2, directory := true, size := 0,
               addresses := [0, 0, 0, 0, 0, 0, 0, 0, 0, 0, 0, 0] } ∧
    (runCalls (callsBeforeNested ++ [.create_file (str "/d1/x") false]) dev0).map
      (fun d => (_getInode d (str "/d1/x"), _getInode d (str "/d1"), readInode d 5))
      = some (none, none,
          some { id := 5, directory := false, size := 0,
                 addresses := [0, 0, 0, 0, 0, 0, 0, 0, 0, 0, 0, 0] }) ∧
    (runCalls (callsBeforeNested ++ [.create_file (str "/d1/x") false]) dev0).bind
      (fun d => (list_dir d (str "/")).map fun l => l.map fun e => e.name)
      = some [str "a", str "x", str "c", str "e"] := by
  rw [show callsBeforeNested = Call.format :: callsBeforeNested.tail from rfl, List.cons_append, runCalls_format, runCalls_format]
  decide!

/-- C17: in the layout of the built-in device the block bitmap has a bit for
every whole block of the data area, the inode bitmap has a bit for every inode
slot, and the inode table spans the number of inodes times `sizeof(Inode)`. -/
theorem calcParts_region_sizes :
    (_calcParts.inodeBitMap - _calcParts.blockBitMap) * BITS_IN_BYTE
      ≥ Int.tdiv (DEVICE_SIZE - _calcParts.data) BLOCK_SIZE ∧
    (_calcParts.root - _calcParts.inodeBitMap) * BITS_IN_BYTE
      ≥ Int.tdiv (DEVICE_SIZE - _calcParts.inodeBitMap) BYTES_PER_INODE ∧
    _calcParts.unused - _calcParts.root
      = Int.tdiv (DEVICE_SIZE - _calcParts.inodeBitMap) BYTES_PER_INODE * sizeof_Inode := by
  rw [← _parts_eq_calcParts]
  decide

/-- C18, failing input: three files are created after `format`, "/a" and "/b"
hold 192 bytes each.  `set_content("/c", 192 bytes 'z')` returns normally; the
stored inode of "/a" is as before, but "/c" got the blocks 12304 .. 12400 of
"/a" as its pointers 5..11, and the bytes read for "/a" are 80 bytes 'x'
followed by 112 bytes 'z'. -/
theorem set_content_overwrites_other_file :
    (runCalls callsTwoOfThree dev0).map
      (fun d => (_getInode d (str "/a"), (_getInode d (str "/a")).bind (_readInodeData d)))
      = some (some { id := 1, directory := false, size := 192,
                     addresses := [12224, 12240, 12256, 12272, 12288, 12304, 12320, 12336, 12352,
                       12368, 12384, 12400] },
              some (List.replicate 192 120)) ∧
    (runCalls (callsTwoOfThree ++ [.set_content (str "/c") (List.replicate 192 122)]) dev0).map
      (fun d => (_getInode d (str "/a"), (_getInode d (str "/a")).bind (_readInodeData d),
        (_getInode d (str "/c")).map fun i => i.addresses))
      = some (some { id := 1, directory := false, size := 192,
                     addresses := [12224, 12240, 12256, 12272, 12288, 12304, 12320, 12336, 12352,
                       12368, 12384, 12400] },
              some (List.replicate 80 120 ++ List.replicate 112 122),
              some [12608, 12624, 12640, 12656, 12672, 12304, 12320, 12336, 12352, 12368, 12384,
                12400]) := by
  rw [show callsTwoOfThree = Call.format :: callsTwoOfThree.tail from rfl, List.cons_append, runCalls_format, runCalls_format]
  decide!

/-- C19, failing input: the inode of the 192-byte file "/a" satisfies the
pointer invariant and has 12 non-zero pointers; the counting loop of
`_reallocateBlocks` reads the slots 0, 1, ..., 11 and then slot 12, outside the
table, and yields no count.  `_addFileToFolder` on a folder of 176 bytes (the
append of the 12th entry) reads slot 11 and, after `pointer++`, slot 12. -/
theorem used_block_scan_reads_slot_12 :
    (runCalls callsFullFile dev0).map
      (fun d => (_getInode d (str "/a")).map fun i =>
        (decide (PointerInvariant i), _reallocateBlocks.slotsRead i.addresses 13 0,
          _reallocateBlocks.countUsed i.addresses 13 0))
      = some (some (true, [0, 1, 2, 3, 4, 5, 6, 7, 8, 9, 10, 11, 12], none)) ∧
    _addFileToFolder.slotsRead 176 = [11, 12] := by
  rw [show callsFullFile = Call.format :: callsFullFile.tail from rfl, runCalls_format]
  decide!

/-- C20, failing input: 32 calls of `_allocateInode` on a new formatted device.
They return 1, 2, ..., 31 and then 8 again: the 31st call sets bits 31..63 of the
only word of the inode bitmap, and the 32nd call takes the first 8 bytes of the
root inode record at address 8142 for the next word, sets bit 0 there and so
turns the id of the root record from 0 into 1. -/
theorem allocateInode_writes_root_record :
    (runCalls [.format] dev0).bind
      (fun d => (allocateMany _parts.inodeBitMap 32 d).map
        fun r => (_getRootDir d, load d 8142 8, r.1, load r.2 8142 8, _getRootDir r.2))
      = some (some { id := 0, directory := true, size := 0,
                     addresses := [0, 0, 0, 0, 0, 0, 0, 0, 0, 0, 0, 0] },
              [0, 0, 0, 0, 1, 0, 0, 0],
              [1, 2, 3, 4, 5, 6, 7, 8, 9, 10, 11, 12, 13, 14, 15, 16, 17, 18, 19, 20, 21, 22, 23, 24,
                25, 26, 27, 28, 29, 30, 31, 8],
              [1, 0, 0, 0, 1, 0, 0, 0],
              some { id := 1, directory := true, size := 0,
                     addresses := [0, 0, 0, 0, 0, 0, 0, 0, 0, 0, 0, 0] }) := by
  rw [runCalls_format]
  decide!

end MyFs
